import Mathlib

/-!
# Planes game framework: a shallow embedding of `Source/CGameApp.cpp`

The game application keeps two ships (`m_pPlayer`, `ally_pPlayer`), a list of
crates, a list of bonus-life pickups, a vector of enemies (each with its own
bullets) and one shared list of player bullets.  This file embeds the parts of
`CGameApp` that decide the collision policy, the save file, the enemy volley
clock, the bullet retirement loop and the timer messages of the explosions.

Conventions of the embedding:

* `Vec2` coordinates are floating point in the program; they are modelled as
  exact rationals, so that truncation to `int` is visible and no rounding is
  assumed.
* `spriteWidth()` / `spriteHeight()` are pixel sizes of a bitmap: natural
  numbers, and `/ 2` on them is integer division as in C++.
* `rand()` is an oracle `rnd : Nat → Nat` (the values returned after the
  `srand` call that opens `ObjectCollision`) together with a counter of the
  draws made so far.
* calls into classes whose code is not part of `CGameApp.cpp` are recorded in a
  chronological `log` of `Event`s kept in the game state.
* the methods of those classes are either modelled from the specification
  (`Explode`, `addLife`, `incrementScore`) or taken as parameters
  (`Collaborators`).
* `int` values are unbounded integers; the range of a 32-bit `int` is stated
  where a value is converted or read (`isInt`).
-/

namespace Planes

/-! ## Data model -/

/-- Vec2: a point of the play field. -/
structure Vec2 where
  x : ℚ
  y : ℚ
deriving DecidableEq

/-- SpriteManipulation: what `CollisionFlag` reads from any game object, its
`Position()` and the size of its sprite. -/
structure SpriteManipulation where
  Position : Vec2
  spriteWidth : Nat
  spriteHeight : Nat
deriving DecidableEq

/-! ## `CGameApp::CollisionFlag` (lines 594-611) -/

/-- CollisionFlag: the rectangle exclusion test, expression by expression as in
the source. -/
def CollisionFlag (obj1 obj2 : SpriteManipulation) : Bool :=
  let LowerLimit : Bool :=
    decide (obj1.Position.y + ((obj1.spriteHeight / 2 : Nat) : ℚ)
      < obj2.Position.y - ((obj2.spriteHeight / 2 : Nat) : ℚ))
  let UpperLimit : Bool :=
    decide (obj1.Position.y - ((obj1.spriteHeight / 2 : Nat) : ℚ)
      > obj2.Position.y + ((obj2.spriteHeight / 2 : Nat) : ℚ))
  let LeftLimit : Bool :=
    decide (obj1.Position.x - ((obj1.spriteWidth / 2 : Nat) : ℚ)
      > obj2.Position.x + ((obj2.spriteWidth / 2 : Nat) : ℚ))
  let RightLlimit : Bool :=
    decide (obj1.Position.x + ((obj1.spriteWidth / 2 : Nat) : ℚ)
      < obj2.Position.x - ((obj2.spriteWidth / 2 : Nat) : ℚ))
  let collided : Bool := !(LowerLimit || UpperLimit || LeftLimit || RightLlimit)
  if collided then true else false

/-! ### The rectangle of a sprite, in the words of the specification -/

/-- Top edge of the bounding box: `Position().y - spriteHeight()/2`. -/
def rectTop (s : SpriteManipulation) : ℚ :=
  s.Position.y - ((s.spriteHeight / 2 : Nat) : ℚ)

/-- Bottom edge of the bounding box: `Position().y + spriteHeight()/2`. -/
def rectBottom (s : SpriteManipulation) : ℚ :=
  s.Position.y + ((s.spriteHeight / 2 : Nat) : ℚ)

/-- Left edge of the bounding box: `Position().x - spriteWidth()/2`. -/
def rectLeft (s : SpriteManipulation) : ℚ :=
  s.Position.x - ((s.spriteWidth / 2 : Nat) : ℚ)

/-- Right edge of the bounding box: `Position().x + spriteWidth()/2`. -/
def rectRight (s : SpriteManipulation) : ℚ :=
  s.Position.x + ((s.spriteWidth / 2 : Nat) : ℚ)

/-- The overlap condition as the specification words it. -/
def overlapSpec (a b : SpriteManipulation) : Prop :=
  ¬ (rectBottom a < rectTop b ∨ rectTop a > rectBottom b
      ∨ rectLeft a > rectRight b ∨ rectRight a < rectLeft b)

/-- A sprite given by its centre and its half extents (sprite size is twice the
half extent). -/
def spriteAt (x y : ℚ) (halfW halfH : Nat) : SpriteManipulation :=
  { Position := ⟨x, y⟩, spriteWidth := 2 * halfW, spriteHeight := 2 * halfH }

/-! ## Game objects -/

/-- The two ships of the game: `m_pPlayer` and `ally_pPlayer`. -/
inductive Ship where
  | player
  | ally
deriving DecidableEq

/-- Calls that leave `CGameApp.cpp`: Win32 timers and the methods of the game
object classes.  `DrawBullet` and `Shoot` carry the identity of the bullet and
the index of the enemy. -/
inductive Event where
  | SetTimer (id : Nat) (elapse : Nat)
  | KillTimer (id : Nat)
  | Explode (s : Ship)
  | addLife (s : Ship)
  | incrementScore (s : Ship) (n : Nat)
  | DrawBullet (id : Nat)
  | Shoot (enemy : Nat)
deriving DecidableEq

/-- CPlayer: a ship.  `exploding` is what `CurrentlyExploding()` returns and
`alive` what `isAlive()` returns. -/
structure CPlayer extends SpriteManipulation where
  exploding : Bool
  alive : Bool
  lives : Nat
  maxLives : Nat
  score : Nat
deriving DecidableEq

/-- Pure query `CurrentlyExploding()`. -/
def CPlayer.CurrentlyExploding (p : CPlayer) : Bool := p.exploding

/-- Pure query `isAlive()`. -/
def CPlayer.isAlive (p : CPlayer) : Bool := p.alive

/-- Modelled from the spec: `CPlayer::Explode` is not part of `CGameApp.cpp`;
"if not already exploding and alive, enters Exploding state". -/
def CPlayer.Explode (p : CPlayer) : CPlayer :=
  if !p.exploding && p.alive then { p with exploding := true } else p

/-- Modelled from the spec: `CPlayer::addLife` is not part of `CGameApp.cpp`;
"increments life count, capped at a maximum". -/
def CPlayer.addLife (p : CPlayer) : CPlayer :=
  { p with lives := min (p.lives + 1) p.maxLives }

/-- Modelled from the spec: `CPlayer::incrementScore` is not part of
`CGameApp.cpp`; "adds n to score". -/
def CPlayer.incrementScore (p : CPlayer) (n : Nat) : CPlayer :=
  { p with score := p.score + n }

/-- Bullet: `id` names the object created by `new Bullet`.  The shared list
holds pointers, and `std::list::remove` compares them: two entries are equal
exactly when they point to the same object.  Objects are numbered in the order
of their creation (the allocator may hand out an address again, but that is
then another object).  `firedBy` is a ghost field: the ship whose `FireBullet`
received the bullet; the program stores no such owner. -/
structure Bullet extends SpriteManipulation where
  id : Nat
  outsideScreen : Bool
  firedBy : Option Ship
deriving DecidableEq

/-- Crate: an obstacle. -/
abbrev Crate := SpriteManipulation

/-- BonusLives: a pickup. -/
abbrev BonusLives := SpriteManipulation

/-- Enemy: owns the bullets it has fired. -/
structure Enemy extends SpriteManipulation where
  bullets : List Bullet
deriving DecidableEq

/-- CGameApp: the members the embedded functions read or write, the static
`prev` of `AnimateObjects`, the number of `rand()` calls since the last
`srand`, the number of bullets created so far by `ProcessInput`, and the
chronological log of outgoing calls. -/
structure CGameApp where
  m_pPlayer : CPlayer
  ally_pPlayer : CPlayer
  crates : List Crate
  bonusLives : List BonusLives
  bullet : List Bullet
  enemies : List Enemy
  m_bActive : Bool
  prev : Int
  randCalls : Nat
  nextBullet : Nat
  log : List Event
deriving DecidableEq

/-- The ship object behind a `Ship` tag. -/
def CGameApp.ship (g : CGameApp) : Ship → CPlayer
  | .player => g.m_pPlayer
  | .ally => g.ally_pPlayer

/-- Store a ship object back. -/
def CGameApp.setShip (g : CGameApp) (sh : Ship) (p : CPlayer) : CGameApp :=
  match sh with
  | .player => { g with m_pPlayer := p }
  | .ally => { g with ally_pPlayer := p }

/-- Timer identifier passed to `SetTimer` next to each ship: 1 for
`m_pPlayer`, 2 for `ally_pPlayer`. -/
def timerId : Ship → Nat
  | .player => 1
  | .ally => 2

/-- Record an outgoing call. -/
def CGameApp.emit (g : CGameApp) (e : Event) : CGameApp :=
  { g with log := g.log ++ [e] }

/-- One call of `rand() % 800`: the value and the state with the draw counted. -/
def CGameApp.rand800 (rnd : Nat → Nat) (g : CGameApp) : Nat × CGameApp :=
  (rnd g.randCalls % 800, { g with randCalls := g.randCalls + 1 })

/-! ## `CGameApp::ObjectCollision` (lines 613-731) -/

/-- A range-for loop over a container whose elements the body may modify: the
body receives the application state and the current element and returns both. -/
def forEach {α : Type} (body : CGameApp → α → CGameApp × α) :
    CGameApp → List α → CGameApp × List α
  | g, [] => (g, [])
  | g, i :: rest =>
    let r := body g i
    let rs := forEach body r.1 rest
    (rs.1, r.2 :: rs.2)

/-- The guard shared by every ship test:
`CollisionFlag(*ship, *i) && !ship->CurrentlyExploding() && ship->isAlive()`. -/
def shipGuard (sh : Ship) (g : CGameApp) (i : SpriteManipulation) : Bool :=
  CollisionFlag (g.ship sh).toSpriteManipulation i
    && !(g.ship sh).CurrentlyExploding && (g.ship sh).isAlive

/-- Lines 620-627 and 629-636 (crates), 678-685 and 687-694 (enemies): the
object moves to `Vec2(rand() % 800, spriteHeight() / 2)`, the ship's timer is
set and the ship explodes. -/
def shipExplodeTest (rnd : Nat → Nat) (sh : Ship) (g : CGameApp)
    (i : SpriteManipulation) : CGameApp × SpriteManipulation :=
  if shipGuard sh g i then
    let r := g.rand800 rnd
    let i1 : SpriteManipulation :=
      { i with Position := ⟨(r.1 : ℚ), ((i.spriteHeight / 2 : Nat) : ℚ)⟩ }
    let g1 := r.2.emit (Event.SetTimer (timerId sh) 100)
    let g2 := (g1.setShip sh (g1.ship sh).Explode).emit (Event.Explode sh)
    (g2, i1)
  else (g, i)

/-- Lines 641-648 and 650-657: the pickup moves, the ship's timer is set and
the ship gains a life. -/
def shipLifeTest (rnd : Nat → Nat) (sh : Ship) (g : CGameApp)
    (i : BonusLives) : CGameApp × BonusLives :=
  if shipGuard sh g i then
    let r := g.rand800 rnd
    let i1 : SpriteManipulation :=
      { i with Position := ⟨(r.1 : ℚ), ((i.spriteHeight / 2 : Nat) : ℚ)⟩ }
    let g1 := r.2.emit (Event.SetTimer (timerId sh) 100)
    let g2 := (g1.setShip sh (g1.ship sh).addLife).emit (Event.addLife sh)
    (g2, i1)
  else (g, i)

/-- Lines 666-671: a crate against one bullet of the shared list. -/
def crateBulletTest (rnd : Nat → Nat) (gi : CGameApp × Crate) (it : Bullet) :
    CGameApp × Crate :=
  if CollisionFlag gi.2 it.toSpriteManipulation then
    let r := gi.1.rand800 rnd
    let i1 : SpriteManipulation :=
      { gi.2 with Position := ⟨(r.1 : ℚ), ((gi.2.spriteHeight / 2 : Nat) : ℚ)⟩ }
    let g1 := (r.2.setShip .player (r.2.m_pPlayer.incrementScore 1)).emit
      (Event.incrementScore .player 1)
    (g1, i1)
  else gi

/-- Lines 699-705 and 707-713: a ship against one bullet of an enemy; the
bullet is left where it is. -/
def shipEnemyBulletTest (sh : Ship) (g : CGameApp) (j : Bullet) : CGameApp :=
  if shipGuard sh g j.toSpriteManipulation then
    let g1 := g.emit (Event.SetTimer (timerId sh) 100)
    (g1.setShip sh (g1.ship sh).Explode).emit (Event.Explode sh)
  else g

/-- Lines 720-726: an enemy against one bullet of the shared list. -/
def enemyBulletTest (rnd : Nat → Nat) (gi : CGameApp × Enemy) (it : Bullet) :
    CGameApp × Enemy :=
  if CollisionFlag gi.2.toSpriteManipulation it.toSpriteManipulation then
    let r := gi.1.rand800 rnd
    let i1 : Enemy := { gi.2 with Position := ⟨(r.1 : ℚ), 100⟩ }
    let g1 := (r.2.setShip .player (r.2.m_pPlayer.incrementScore 10)).emit
      (Event.incrementScore .player 10)
    (g1, i1)
  else gi

/-- Body of the first loop (lines 618-637): player test, then ally test. -/
def cratesBody (rnd : Nat → Nat) (g : CGameApp) (i : Crate) : CGameApp × Crate :=
  let r := shipExplodeTest rnd .player g i
  shipExplodeTest rnd .ally r.1 r.2

/-- Body of the second loop (lines 639-658). -/
def bonusBody (rnd : Nat → Nat) (g : CGameApp) (i : BonusLives) :
    CGameApp × BonusLives :=
  let r := shipLifeTest rnd .player g i
  shipLifeTest rnd .ally r.1 r.2

/-- Body of the third loop (lines 661-674): the inner loop runs over the shared
bullet list. -/
def crateBulletsBody (rnd : Nat → Nat) (g : CGameApp) (i : Crate) :
    CGameApp × Crate :=
  g.bullet.foldl (crateBulletTest rnd) (g, i)

/-- Body of the fourth loop (lines 676-695): as for crates, on the enemy. -/
def enemiesBody (rnd : Nat → Nat) (g : CGameApp) (i : Enemy) : CGameApp × Enemy :=
  let r := shipExplodeTest rnd .player g i.toSpriteManipulation
  let r2 := shipExplodeTest rnd .ally r.1 r.2
  (r2.1, { i with toSpriteManipulation := r2.2 })

/-- Inner body of the fifth loop (lines 697-714). -/
def enemyShotBody (g : CGameApp) (j : Bullet) : CGameApp :=
  shipEnemyBulletTest .ally (shipEnemyBulletTest .player g j) j

/-- Body of the fifth loop (lines 696-714): nothing of the enemy changes. -/
def enemyShotsBody (g : CGameApp) (i : Enemy) : CGameApp × Enemy :=
  (i.bullets.foldl enemyShotBody g, i)

/-- Body of the sixth loop (lines 715-729). -/
def enemyBulletsBody (rnd : Nat → Nat) (g : CGameApp) (i : Enemy) :
    CGameApp × Enemy :=
  g.bullet.foldl (enemyBulletTest rnd) (g, i)

/-- First loop, lines 618-637: ships against crates. -/
def cratesLoop (rnd : Nat → Nat) (g : CGameApp) : CGameApp :=
  let r := forEach (cratesBody rnd) g g.crates
  { r.1 with crates := r.2 }

/-- Second loop, lines 639-658: ships against pickups. -/
def bonusLoop (rnd : Nat → Nat) (g : CGameApp) : CGameApp :=
  let r := forEach (bonusBody rnd) g g.bonusLives
  { r.1 with bonusLives := r.2 }

/-- Third loop, lines 661-674: crates against the shared bullets. -/
def crateBulletsLoop (rnd : Nat → Nat) (g : CGameApp) : CGameApp :=
  let r := forEach (crateBulletsBody rnd) g g.crates
  { r.1 with crates := r.2 }

/-- Fourth loop, lines 676-695: ships against enemies. -/
def enemiesLoop (rnd : Nat → Nat) (g : CGameApp) : CGameApp :=
  let r := forEach (enemiesBody rnd) g g.enemies
  { r.1 with enemies := r.2 }

/-- Fifth loop, lines 696-714: ships against the bullets of the enemies. -/
def enemyShotsLoop (g : CGameApp) : CGameApp :=
  let r := forEach enemyShotsBody g g.enemies
  { r.1 with enemies := r.2 }

/-- Sixth loop, lines 715-729: enemies against the shared bullets. -/
def enemyBulletsLoop (rnd : Nat → Nat) (g : CGameApp) : CGameApp :=
  let r := forEach (enemyBulletsBody rnd) g g.enemies
  { r.1 with enemies := r.2 }

/-- ObjectCollision: `srand` restarts the random sequence, then the six loops
run in the order of the source. -/
def ObjectCollision (rnd : Nat → Nat) (g : CGameApp) : CGameApp :=
  let g0 : CGameApp := { g with randCalls := 0 }
  let g1 := cratesLoop rnd g0
  let g2 := bonusLoop rnd g1
  let g3 := crateBulletsLoop rnd g2
  let g4 := enemiesLoop rnd g3
  let g5 := enemyShotsLoop g4
  enemyBulletsLoop rnd g5

/-- The calls made by one pass: what the pass appended to the log. -/
def passEvents (rnd : Nat → Nat) (g : CGameApp) : List Event :=
  (ObjectCollision rnd g).log.drop g.log.length

/-- What one test of the pass may do to the ships, the log and the shared
bullet list: make a ship that is alive and not exploding explode, give such a
ship a life, add points to `m_pPlayer`, or leave all of these as they are
(an update of crates, pickups, enemies or the random counter). -/
inductive PassStep : CGameApp → CGameApp → Prop where
  | explode (sh : Ship) (g g' : CGameApp) :
      (g.ship sh).exploding = false → (g.ship sh).alive = true →
      g'.ship sh = (g.ship sh).Explode →
      (∀ o, o ≠ sh → g'.ship o = g.ship o) →
      g'.log = g.log ++ [Event.SetTimer (timerId sh) 100, Event.Explode sh] →
      g'.bullet = g.bullet → g'.nextBullet = g.nextBullet → PassStep g g'
  | life (sh : Ship) (g g' : CGameApp) :
      (g.ship sh).exploding = false → (g.ship sh).alive = true →
      g'.ship sh = (g.ship sh).addLife →
      (∀ o, o ≠ sh → g'.ship o = g.ship o) →
      g'.log = g.log ++ [Event.SetTimer (timerId sh) 100, Event.addLife sh] →
      g'.bullet = g.bullet → g'.nextBullet = g.nextBullet → PassStep g g'
  | score (n : Nat) (g g' : CGameApp) :
      n = 1 ∨ n = 10 →
      g'.m_pPlayer = g.m_pPlayer.incrementScore n →
      g'.ally_pPlayer = g.ally_pPlayer →
      g'.log = g.log ++ [Event.incrementScore .player n] →
      g'.bullet = g.bullet → g'.nextBullet = g.nextBullet → PassStep g g'
  | frame (g g' : CGameApp) :
      g'.m_pPlayer = g.m_pPlayer → g'.ally_pPlayer = g.ally_pPlayer →
      g'.log = g.log → g'.bullet = g.bullet → g'.nextBullet = g.nextBullet →
      PassStep g g'

/-- A run of tests. -/
abbrev PassRun : CGameApp → CGameApp → Prop := Relation.ReflTransGen PassStep

/-- Points credited to a ship by the `incrementScore` calls of a log. -/
def pointsOf (sh : Ship) : List Event → Nat
  | [] => 0
  | Event.incrementScore s n :: rest =>
    (if s = sh then n else 0) + pointsOf sh rest
  | _ :: rest => pointsOf sh rest

/-- What a run of tests keeps true of one ship, `evs` being the calls made
since the run began in `g0`. -/
def RunInv (sh : Ship) (g0 g : CGameApp) (evs : List Event) : Prop :=
  g.log = g0.log ++ evs
  ∧ (g.ship sh).alive = (g0.ship sh).alive
  ∧ ((g0.ship sh).exploding = true → (g.ship sh).exploding = true)
  ∧ (Event.Explode sh ∈ evs → (g.ship sh).exploding = true)
  ∧ evs.count (Event.Explode sh) ≤ 1
  ∧ (((g0.ship sh).exploding = true ∨ (g0.ship sh).alive = false) →
      Event.Explode sh ∉ evs ∧ Event.addLife sh ∉ evs)
  ∧ (∀ pre post, evs = pre ++ Event.Explode sh :: post → Event.addLife sh ∉ post)
  ∧ (g.ship sh).score = (g0.ship sh).score + pointsOf sh evs
  ∧ (∀ s n, Event.incrementScore s n ∈ evs → s = Ship.player ∧ (n = 1 ∨ n = 10))

/-! ## `CGameApp::SaveGame` and `CGameApp::loadGame` (lines 577-591) -/

/-- The conversion `(int)` of a coordinate: truncation toward zero. -/
def truncToInt (q : ℚ) : Int := Int.tdiv q.num q.den

/-- Least value of a 32-bit `int`. -/
def INT_MIN : Int := -2147483648

/-- Greatest value of a 32-bit `int`. -/
def INT_MAX : Int := 2147483647

/-- The values an `int` can hold. -/
def isInt (v : Int) : Prop := INT_MIN ≤ v ∧ v ≤ INT_MAX

instance (v : Int) : Decidable (isInt v) :=
  inferInstanceAs (Decidable (INT_MIN ≤ v ∧ v ≤ INT_MAX))

/-- SaveGame: the text written to `SaveGame.txt`.  `g << (int)v` writes the
decimal form of the integer, which is what `toString` gives. -/
def SaveGame (g : CGameApp) : String :=
  toString (truncToInt g.m_pPlayer.Position.x) ++ " "
    ++ toString (truncToInt g.m_pPlayer.Position.y) ++ "\n"
    ++ toString (truncToInt g.ally_pPlayer.Position.x) ++ " "
    ++ toString (truncToInt g.ally_pPlayer.Position.y) ++ "\n"

/-- White space of the C locale, skipped by `>>` before a number. -/
def isSpace (c : Char) : Bool :=
  c == ' ' || c == '\t' || c == '\n' || c == '\r' || c.toNat == 11 || c.toNat == 12

/-- Skip leading white space. -/
def skipSpace : List Char → List Char
  | [] => []
  | c :: rest => if isSpace c then skipSpace rest else c :: rest

/-- Value of a run of decimal digits read after `acc`. -/
def digitsValue (acc : Nat) (ds : List Char) : Nat :=
  ds.foldl (fun a c => 10 * a + (c.toNat - 48)) acc

/-- One `f >> v` for an `int`: white space is skipped, an optional sign and the
longest run of digits are read; the extraction fails (`none`) when there is no
digit or when the value does not fit an `int`.  On success the value and the
unread rest of the stream are returned. -/
def extractInt (cs : List Char) : Option (Int × List Char) :=
  let cs1 := skipSpace cs
  let signed : Bool × List Char :=
    match cs1 with
    | '-' :: r => (true, r)
    | '+' :: r => (false, r)
    | _ => (false, cs1)
  let ds := signed.2.takeWhile Char.isDigit
  let rest := signed.2.dropWhile Char.isDigit
  if ds.isEmpty then none
  else
    let v : Int := if signed.1 then -((digitsValue 0 ds : Nat) : Int) else (digitsValue 0 ds : Nat)
    if isInt v then some (v, rest) else none

/-- loadGame: `f >> x1 >> y1 >> x2 >> y2` on the text of the file, then both
positions are overwritten.  After a failed extraction the variables hold no
determined value: the result is `none`. -/
def loadGame (file : String) (g : CGameApp) : Option CGameApp :=
  match extractInt file.data with
  | none => none
  | some (x1, r1) =>
    match extractInt r1 with
    | none => none
    | some (y1, r2) =>
      match extractInt r2 with
      | none => none
      | some (x2, r3) =>
        match extractInt r3 with
        | none => none
        | some (y2, _) =>
          some { g with
            m_pPlayer := { g.m_pPlayer with Position := ⟨(x1 : ℚ), (y1 : ℚ)⟩ },
            ally_pPlayer := { g.ally_pPlayer with Position := ⟨(x2 : ℚ), (y2 : ℚ)⟩ } }

/-! ## Code outside `CGameApp.cpp` -/

/-- The classes `CPlayer`, `Bullet`, `Crate`, `BonusLives` and `Enemy` are
declared and implemented outside `CGameApp.cpp`, and `CLOCKS_PER_SEC` comes
from the C library.  What `ProcessInput` and `AnimateObjects` call of them is
taken as a parameter: the direction flags, the state of a bullet fresh from
`new Bullet(m_pBBuffer)`, and the methods, each as a function from the objects
it may touch to their new states. -/
structure Collaborators where
  DIR_FORWARD : Nat
  DIR_BACKWARD : Nat
  DIR_LEFT : Nat
  DIR_RIGHT : Nat
  CLOCKS_PER_SEC : Int
  newBullet : SpriteManipulation
  FireBullet : CPlayer → Bullet → CPlayer × Bullet
  Collsion : CPlayer → CPlayer → CPlayer × CPlayer
  Move : CPlayer → Nat → CPlayer
  UpdatePlayer : CPlayer → ℚ → CPlayer
  UpdateBullet : Bullet → ℚ → Bullet
  UpdateCrate : Crate → ℚ → Nat → Nat → Crate
  UpdateBonus : BonusLives → ℚ → Nat → Nat → BonusLives
  UpdateEnemy : Enemy → ℚ → Enemy
  Shoot : Enemy → Enemy

/-! ## `CGameApp::ProcessInput` (lines 416-476) -/

/-- Win32 virtual key codes used by `ProcessInput`. -/
def VK_SPACE : Nat := 0x20

def VK_LEFT : Nat := 0x25

def VK_UP : Nat := 0x26

def VK_RIGHT : Nat := 0x27

def VK_DOWN : Nat := 0x28

/-- The test `pKeyBuffer[k] & 0xF0` on the keyboard state. -/
def keyDown (pKeyBuffer : Nat → Nat) (k : Nat) : Bool :=
  pKeyBuffer k &&& 0xF0 != 0

/-- Lines 438-443 and 445-450 for one ship: a bullet is created, appended to
the shared list and handed to the ship's `FireBullet`. -/
def fireKey (api : Collaborators) (sh : Ship) (g : CGameApp) : CGameApp :=
  let b : Bullet :=
    { toSpriteManipulation := api.newBullet, id := g.nextBullet,
      outsideScreen := false, firedBy := none }
  let r := api.FireBullet (g.ship sh) b
  let b1 : Bullet := { r.2 with id := b.id, firedBy := some sh }
  { g.setShip sh r.1 with bullet := g.bullet ++ [b1], nextBullet := g.nextBullet + 1 }

/-- Lines 438-450: the fire keys, SPACE for `m_pPlayer` and then C for
`ally_pPlayer`. -/
def fireKeys (api : Collaborators) (pKeyBuffer : Nat → Nat) (g : CGameApp) : CGameApp :=
  let g1 := if keyDown pKeyBuffer VK_SPACE then fireKey api .player g else g
  if keyDown pKeyBuffer 'C'.toNat then fireKey api .ally g1 else g1

/-- Lines 453-456: `m_pPlayer->Collsion(ally_pPlayer)`,
`ally_pPlayer->Collsion(m_pPlayer)`, then the two `Move` calls. -/
def movePlayers (api : Collaborators) (Direction Direction2 : Nat) (g : CGameApp) :
    CGameApp :=
  let c1 := api.Collsion g.m_pPlayer g.ally_pPlayer
  let c2 := api.Collsion c1.2 c1.1
  { g with m_pPlayer := api.Move c2.2 Direction,
           ally_pPlayer := api.Move c2.1 Direction2 }

/-- ProcessInput: `kb` is the keyboard state, `none` when `GetKeyboardState`
fails.  The cursor handling at the end touches nothing of the game. -/
def ProcessInput (api : Collaborators) (kb : Option (Nat → Nat)) (g : CGameApp) :
    CGameApp :=
  match kb with
  | none => g
  | some pKeyBuffer =>
    let Direction : Nat :=
      (((0 ||| (if keyDown pKeyBuffer VK_UP then api.DIR_FORWARD else 0))
        ||| (if keyDown pKeyBuffer VK_DOWN then api.DIR_BACKWARD else 0))
        ||| (if keyDown pKeyBuffer VK_LEFT then api.DIR_LEFT else 0))
        ||| (if keyDown pKeyBuffer VK_RIGHT then api.DIR_RIGHT else 0)
    let Direction2 : Nat :=
      (((0 ||| (if keyDown pKeyBuffer 'W'.toNat then api.DIR_FORWARD else 0))
        ||| (if keyDown pKeyBuffer 'S'.toNat then api.DIR_BACKWARD else 0))
        ||| (if keyDown pKeyBuffer 'A'.toNat then api.DIR_LEFT else 0))
        ||| (if keyDown pKeyBuffer 'D'.toNat then api.DIR_RIGHT else 0)
    movePlayers api Direction Direction2 (fireKeys api pKeyBuffer g)

/-! ## `CGameApp::AnimateObjects` (lines 482-515) -/

/-- The loop of lines 506-510: `enemies[i]->Shoot` for `i` from `n` on. -/
def shootAll (api : Collaborators) : Nat → List Enemy → List Event × List Enemy
  | _, [] => ([], [])
  | n, e :: rest =>
    let r := shootAll api (n + 1) rest
    (Event.Shoot n :: r.1, api.Shoot e :: r.2)

/-- Lines 502-512: the volley of the enemies, `current` being what `clock()`
returns.  The quotient is the truncating division of C. -/
def enemyVolley (api : Collaborators) (current : Int) (g : CGameApp) : CGameApp :=
  if Int.tdiv (current - g.prev) api.CLOCKS_PER_SEC > 2 then
    let r := shootAll api 0 g.enemies
    { g with enemies := r.2, log := g.log ++ r.1, prev := current }
  else g

/-- Lines 484-499: every object is updated with the elapsed time of the frame
timer; a bullet keeps its address and the ghost record of who fired it. -/
def updateAll (api : Collaborators) (dt : ℚ) (g : CGameApp) : CGameApp :=
  { g with
    m_pPlayer := api.UpdatePlayer g.m_pPlayer dt,
    ally_pPlayer := api.UpdatePlayer g.ally_pPlayer dt,
    bullet := g.bullet.map
      (fun it => { api.UpdateBullet it dt with id := it.id, firedBy := it.firedBy }),
    crates := g.crates.map (fun it => api.UpdateCrate it dt 600 800),
    bonusLives := g.bonusLives.map (fun it => api.UpdateBonus it dt 600 800),
    enemies := g.enemies.map (fun it => api.UpdateEnemy it dt) }

/-- AnimateObjects: updates, volley, collision pass. -/
def AnimateObjects (api : Collaborators) (dt : ℚ) (current : Int) (rnd : Nat → Nat)
    (g : CGameApp) : CGameApp :=
  ObjectCollision rnd (enemyVolley api current (updateAll api dt g))

/-! ## `CGameApp::DrawObjects` (lines 521-576) -/

/-- The loop of lines 551-564 over the shared bullet list.  `kept` is the part
of the list before the iterator, `rest` the part from the iterator on.  A
bullet flagged `outsideScreen` is deleted and `bullet.remove` erases every
element holding its address; any other bullet is drawn.  The first argument
bounds the number of iterations; the length of the list is enough. -/
def drawBullets : Nat → List Event → List Bullet → List Bullet →
    List Event × List Bullet
  | 0, log, kept, rest => (log, kept ++ rest)
  | _ + 1, log, kept, [] => (log, kept)
  | fuel + 1, log, kept, b :: rest =>
    if b.outsideScreen then
      drawBullets fuel log (kept.filter (fun c => c.id != b.id))
        (rest.filter (fun c => c.id != b.id))
    else
      drawBullets fuel (log ++ [Event.DrawBullet b.id]) (kept ++ [b]) rest

/-- DrawObjects: the retirement and drawing of the shared bullets.  The
painting of the background and of the other objects changes nothing that the
game reads and is left out. -/
def DrawObjects (g : CGameApp) : CGameApp :=
  let r := drawBullets g.bullet.length g.log [] g.bullet
  { g with bullet := r.2, log := r.1 }

/-! ## `CGameApp::FrameAdvance` (lines 382-410) -/

/-- What one frame reads from outside: the keyboard, the elapsed time of the
frame timer, `clock()`, and the random values after `srand`. -/
structure FrameInput where
  kb : Option (Nat → Nat)
  dt : ℚ
  clock : Int
  rnd : Nat → Nat

/-- FrameAdvance: nothing happens while the application is inactive;
otherwise input, animation and drawing follow one another.  The tick of the
frame timer is what provides `dt`; the frame rate shown in the window title is
not part of the game state. -/
def FrameAdvance (api : Collaborators) (g : CGameApp) (i : FrameInput) : CGameApp :=
  if !g.m_bActive then g
  else DrawObjects (AnimateObjects api i.dt i.clock i.rnd (ProcessInput api i.kb g))

/-- The methods of `CPlayer` called by `ProcessInput` and `AnimateObjects`
do not lower the score of a ship (in `CGameApp.cpp` the score is only ever
reached through `incrementScore`). -/
def Collaborators.keepsScore (api : Collaborators) : Prop :=
  (∀ p b, p.score ≤ (api.FireBullet p b).1.score)
  ∧ (∀ p q, p.score ≤ (api.Collsion p q).1.score ∧ q.score ≤ (api.Collsion p q).2.score)
  ∧ (∀ p d, p.score ≤ (api.Move p d).score)
  ∧ (∀ p dt, p.score ≤ (api.UpdatePlayer p dt).score)

/-- Modelled from the spec: the methods that are not in `CGameApp.cpp`, as far
as the specification describes them.  `FireBullet` "spawns a new projectile at
the ship's position" and is ignored for a dead ship; `Shoot` "creates and
retains a new projectile in the enemy's own set"; `Collsion`, `Move` and the
`Update` methods leave the objects at rest. -/
def restingCollaborators : Collaborators :=
  { DIR_FORWARD := 1, DIR_BACKWARD := 2, DIR_LEFT := 4, DIR_RIGHT := 8,
    CLOCKS_PER_SEC := 1000,
    newBullet := { Position := ⟨0, 0⟩, spriteWidth := 8, spriteHeight := 8 },
    FireBullet := fun p b => (p, if p.alive then { b with Position := p.Position } else b),
    Collsion := fun p q => (p, q),
    Move := fun p _ => p,
    UpdatePlayer := fun p _ => p,
    UpdateBullet := fun b _ => b,
    UpdateCrate := fun c _ _ _ => c,
    UpdateBonus := fun c _ _ _ => c,
    UpdateEnemy := fun e _ => e,
    Shoot := fun e =>
      { e with bullets := e.bullets ++
          [{ Position := e.Position, spriteWidth := 8, spriteHeight := 8,
             id := e.bullets.length, outsideScreen := false, firedBy := none }] } }

/-! ## Concrete game states -/

/-- A ship with a 32 x 32 sprite (half extents 16, 16), alive, not exploding,
three lives out of five, no points. -/
def shipAt (x y : ℚ) : CPlayer :=
  { Position := ⟨x, y⟩, spriteWidth := 32, spriteHeight := 32,
    exploding := false, alive := true, lives := 3, maxLives := 5, score := 0 }

/-- A game with the two ships and nothing else. -/
def gameOf (player ally : CPlayer) : CGameApp :=
  { m_pPlayer := player, ally_pPlayer := ally, crates := [], bonusLives := [],
    bullet := [], enemies := [], m_bActive := true, prev := 0, randCalls := 0,
    nextBullet := 0, log := [] }

/-- The positions given by `SetupGameState`: (100, 400) and (400, 300). -/
def startGame : CGameApp := gameOf (shipAt 100 400) (shipAt 400 300)

/-- A game whose ships stand at fractional and negative coordinates. -/
def driftedGame : CGameApp := gameOf (shipAt (-25 / 2) (1603 / 4)) (shipAt 300 (-1 / 3))

/-- The shared bullet list holds distinct objects. -/
def CGameApp.bulletsDistinct (g : CGameApp) : Prop :=
  (g.bullet.map Bullet.id).Nodup

instance (g : CGameApp) : Decidable g.bulletsDistinct :=
  inferInstanceAs (Decidable (g.bullet.map Bullet.id).Nodup)

/-- Every bullet of the shared list was created before now. -/
def CGameApp.bulletsNumbered (g : CGameApp) : Prop :=
  ∀ b ∈ g.bullet, b.id < g.nextBullet

instance (g : CGameApp) : Decidable g.bulletsNumbered :=
  inferInstanceAs (Decidable (∀ b ∈ g.bullet, b.id < g.nextBullet))

/-- The bullet list that the collision pass of a frame tests: the shared list
as it stands when `AnimateObjects` reaches `ObjectCollision`. -/
def testedBullets (api : Collaborators) (g : CGameApp) (i : FrameInput) : List Bullet :=
  (enemyVolley api i.clock (updateAll api i.dt (ProcessInput api i.kb g))).bullet

/-- Every bullet of the shared list is one of the objects `S` or was created
when at least `N` bullets had been created before it. -/
def bulletsFrom (S : List Nat) (N : Nat) (g : CGameApp) : Prop :=
  (∀ c ∈ g.bullet, c.id ∈ S ∨ N ≤ c.id) ∧ N ≤ g.nextBullet

/-- Three bullets in flight, the middle one flagged as outside the screen. -/
def threeBullets : CGameApp :=
  { startGame with
    bullet :=
      [{ toSpriteManipulation := spriteAt 100 300 4 4, id := 0, outsideScreen := false,
         firedBy := some .player },
       { toSpriteManipulation := spriteAt 100 (-10) 4 4, id := 1, outsideScreen := true,
         firedBy := some .player },
       { toSpriteManipulation := spriteAt 400 200 4 4, id := 2, outsideScreen := false,
         firedBy := some .ally }],
    nextBullet := 3 }

/-- A keyboard state with one key held. -/
def oneKey (k : Nat) : Nat → Nat := fun j => if j = k then 128 else 0

/-- The ally is in the middle of an explosion and a crate sits on it. -/
def allyUnderCrate : CGameApp :=
  { gameOf (shipAt 100 400) { shipAt 400 300 with exploding := true } with
    crates := [spriteAt 400 300 16 16] }

/-- The player has no life left and is not alive. -/
def deadPlayerGame : CGameApp :=
  gameOf { shipAt 100 400 with alive := false, lives := 0 } (shipAt 400 300)

/-- One enemy, last volley at clock value 0. -/
def volleyGame : CGameApp :=
  { startGame with
    enemies := [{ toSpriteManipulation := spriteAt 700 100 16 16, bullets := [] }] }

/-! ## `CGameApp::DisplayWndProc`, case `WM_TIMER` (lines 290-299) -/

/-- What the `WM_TIMER` case calls, in order: `AdvanceExplosion` on a ship,
with the value it returned, and `KillTimer` with a timer identifier. -/
inductive WndCall where
  | AdvanceExplosion (s : Ship) (returned : Bool)
  | KillTimer (id : Nat)
deriving DecidableEq

/-- Lines 294-295 and 296-297 for one ship: `AdvanceExplosion` is called on the
ship, and when it returns false `KillTimer` is called with the given
identifier.  `CPlayer::AdvanceExplosion` is not part of `CGameApp.cpp`: it is
a parameter, a function from the ship to the returned value and the new state
of the ship. -/
def advanceShip (AdvanceExplosion : CPlayer → Bool × CPlayer) (sh : Ship) (timer : Nat)
    (gc : CGameApp × List WndCall) : CGameApp × List WndCall :=
  let r := AdvanceExplosion (gc.1.ship sh)
  let g1 := gc.1.setShip sh r.2
  if !r.1 then
    (g1.emit (Event.KillTimer timer),
      gc.2 ++ [WndCall.AdvanceExplosion sh r.1, WndCall.KillTimer timer])
  else
    (g1, gc.2 ++ [WndCall.AdvanceExplosion sh r.1])

/-- DisplayWndProc on a `WM_TIMER` message, `wParam` being the identifier of
the timer that ticked.  The `switch` has the single label `case 1`, under
which both ships are advanced; any other identifier falls through the `switch`
with nothing done.  The result is the new state and the calls made. -/
def DisplayWndProcTimer (AdvanceExplosion : CPlayer → Bool × CPlayer) (wParam : Nat)
    (g : CGameApp) : CGameApp × List WndCall :=
  match wParam with
  | 1 =>
    advanceShip AdvanceExplosion .ally 2
      (advanceShip AdvanceExplosion .player 1 (g, []))
  | _ => (g, [])

/-- A run of `WM_TIMER` messages, given by the identifiers of the timers that
ticked; the calls of all of them, in order. -/
def timerTicks (AdvanceExplosion : CPlayer → Bool × CPlayer) :
    List Nat → CGameApp → CGameApp × List WndCall
  | [], g => (g, [])
  | w :: rest, g =>
    let r := DisplayWndProcTimer AdvanceExplosion w g
    let rs := timerTicks AdvanceExplosion rest r.1
    (rs.1, r.2 ++ rs.2)

/-- Modelled from the spec: `CPlayer::AdvanceExplosion` is not part of
`CGameApp.cpp`; it "advances the explosion animation by one tick; returns
false when animation completes", and on completion "if life count is zero,
ship transitions to Dead", otherwise one life is taken and the ship is back to
Alive.  The animation modelled here completes at its first tick; for a ship
that is not exploding nothing happens and true is returned. -/
def oneTickExplosion (p : CPlayer) : Bool × CPlayer :=
  if p.exploding then
    if p.lives = 0 then (false, { p with exploding := false, alive := false })
    else (false, { p with exploding := false, lives := p.lives - 1 })
  else (true, p)

/-- The ally stands under a crate; the player is away from everything. -/
def allyHitGame : CGameApp :=
  { startGame with crates := [spriteAt 400 300 16 16] }

/-- In the list `l` every occurrence of `x` comes right after a `y`. -/
def rightAfter {α : Type} (y x : α) (l : List α) : Prop :=
  ∀ pre post, l = pre ++ x :: post → ∃ front, pre = front ++ [y]

/-- A game in progress: the player has 5 points and the ally 2; one bullet of
the shared list lies on a crate at (300, 200), another on an enemy at
(600, 100); the ships are away from all of them. -/
def scoringGame : CGameApp :=
  { gameOf { shipAt 100 400 with score := 5 } { shipAt 400 300 with score := 2 } with
    crates := [spriteAt 300 200 16 16],
    enemies := [{ toSpriteManipulation := spriteAt 600 100 16 16, bullets := [] }],
    bullet :=
      [{ toSpriteManipulation := spriteAt 300 200 4 4, id := 0, outsideScreen := false,
         firedBy := some .player },
       { toSpriteManipulation := spriteAt 600 100 4 4, id := 1, outsideScreen := false,
         firedBy := some .ally }],
    nextBullet := 2 }

/-- The random values of a pass in which the crate that is hit lands at x = 11
and the enemy that is hit lands at x = 600, under the same bullet again. -/
def scoringRand : Nat → Nat := fun n => 11 + 589 * n

/-- Two frames: in the first the space bar is held, in the second the keyboard
cannot be read; the enemy that is hit lands at x = 600 both times. -/
def scoringFrames : List FrameInput :=
  [{ kb := some (oneKey VK_SPACE), dt := 1 / 60, clock := 16, rnd := scoringRand },
   { kb := none, dt := 1 / 60, clock := 33, rnd := fun n => 600 + n }]

/-! ## Theorems on `CollisionFlag` -/

theorem CollisionFlag_iff (a b : SpriteManipulation) :
    CollisionFlag a b = true ↔ overlapSpec a b := by
  simp only [CollisionFlag, overlapSpec, rectTop, rectBottom, rectLeft, rectRight]
  simp [and_assoc]

theorem rectTop_le_rectBottom (s : SpriteManipulation) : rectTop s ≤ rectBottom s := by
  have h : (0 : ℚ) ≤ ((s.spriteHeight / 2 : Nat) : ℚ) := Nat.cast_nonneg _
  simp only [rectTop, rectBottom]
  linarith

theorem rectLeft_le_rectRight (s : SpriteManipulation) : rectLeft s ≤ rectRight s := by
  have h : (0 : ℚ) ≤ ((s.spriteWidth / 2 : Nat) : ℚ) := Nat.cast_nonneg _
  simp only [rectLeft, rectRight]
  linarith

/-- C1: `CollisionFlag` is symmetric, for any two sprites whatever their
positions and sprite sizes. -/
theorem CollisionFlag_symm (a b : SpriteManipulation) :
    CollisionFlag a b = CollisionFlag b a := by
  rw [Bool.eq_iff_iff, CollisionFlag_iff, CollisionFlag_iff]
  simp only [overlapSpec, gt_iff_lt]
  tauto

/-- C2: `CollisionFlag` is true exactly when none of the four strict
separations holds (bottom above the other's top, top below the other's bottom,
left beyond the other's right, right before the other's left); rectangles that
touch along an edge or at a corner overlap, and so do two sprites at the same
position. -/
theorem CollisionFlag_exact (a b : SpriteManipulation) :
    (CollisionFlag a b = true ↔
      ¬ (rectBottom a < rectTop b ∨ rectTop a > rectBottom b
          ∨ rectLeft a > rectRight b ∨ rectRight a < rectLeft b))
    ∧ (rectBottom a = rectTop b → ¬ rectLeft a > rectRight b →
        ¬ rectRight a < rectLeft b → CollisionFlag a b = true)
    ∧ (rectRight a = rectLeft b → ¬ rectBottom a < rectTop b →
        ¬ rectTop a > rectBottom b → CollisionFlag a b = true)
    ∧ (rectBottom a = rectTop b → rectRight a = rectLeft b →
        CollisionFlag a b = true)
    ∧ (a.Position = b.Position → CollisionFlag a b = true) := by
  have ha := rectTop_le_rectBottom a
  have hb := rectTop_le_rectBottom b
  have ha2 := rectLeft_le_rectRight a
  have hb2 := rectLeft_le_rectRight b
  refine ⟨CollisionFlag_iff a b, ?_, ?_, ?_, ?_⟩
  · intro h1 h2 h3
    rw [CollisionFlag_iff]
    simp only [overlapSpec, gt_iff_lt, not_or, not_lt] at *
    exact ⟨by linarith, by linarith, h2, h3⟩
  · intro h1 h2 h3
    rw [CollisionFlag_iff]
    simp only [overlapSpec, gt_iff_lt, not_or, not_lt] at *
    exact ⟨h2, h3, by linarith, by linarith⟩
  · intro h1 h2
    rw [CollisionFlag_iff]
    simp only [overlapSpec, gt_iff_lt, not_or, not_lt] at *
    exact ⟨by linarith, by linarith, by linarith, by linarith⟩
  · intro h
    rw [CollisionFlag_iff]
    have hy : (0 : ℚ) ≤ ((a.spriteHeight / 2 : Nat) : ℚ) := Nat.cast_nonneg _
    have hy2 : (0 : ℚ) ≤ ((b.spriteHeight / 2 : Nat) : ℚ) := Nat.cast_nonneg _
    have hx : (0 : ℚ) ≤ ((a.spriteWidth / 2 : Nat) : ℚ) := Nat.cast_nonneg _
    have hx2 : (0 : ℚ) ≤ ((b.spriteWidth / 2 : Nat) : ℚ) := Nat.cast_nonneg _
    simp only [overlapSpec, rectTop, rectBottom, rectLeft, rectRight, gt_iff_lt, not_or,
      not_lt, h]
    exact ⟨by linarith, by linarith, by linarith, by linarith⟩

/-- Two sprites at (100, 400) with half extents (16, 16) overlap, being at the
same position. -/
theorem CollisionFlag_exact_witness :
    CollisionFlag (spriteAt 100 400 16 16) (spriteAt 100 400 16 16) = true :=
  (CollisionFlag_exact (spriteAt 100 400 16 16) (spriteAt 100 400 16 16)).2.2.2.2 rfl

/-! ## Basic facts on the state accessors -/

@[simp] theorem ship_player (g : CGameApp) : g.ship .player = g.m_pPlayer := rfl

@[simp] theorem ship_ally (g : CGameApp) : g.ship .ally = g.ally_pPlayer := rfl

@[simp] theorem ship_setShip_same (g : CGameApp) (sh : Ship) (p : CPlayer) :
    (g.setShip sh p).ship sh = p := by
  cases sh <;> rfl

theorem ship_setShip_ne (g : CGameApp) (sh o : Ship) (p : CPlayer) (h : o ≠ sh) :
    (g.setShip sh p).ship o = g.ship o := by
  cases sh <;> cases o <;> first | rfl | exact absurd rfl h

@[simp] theorem log_setShip (g : CGameApp) (sh : Ship) (p : CPlayer) :
    (g.setShip sh p).log = g.log := by
  cases sh <;> rfl

@[simp] theorem bullet_setShip (g : CGameApp) (sh : Ship) (p : CPlayer) :
    (g.setShip sh p).bullet = g.bullet := by
  cases sh <;> rfl

@[simp] theorem log_emit (g : CGameApp) (e : Event) : (g.emit e).log = g.log ++ [e] := rfl

@[simp] theorem ship_emit (g : CGameApp) (e : Event) (sh : Ship) :
    (g.emit e).ship sh = g.ship sh := by
  cases sh <;> rfl

@[simp] theorem bullet_emit (g : CGameApp) (e : Event) : (g.emit e).bullet = g.bullet := rfl

@[simp] theorem log_rand800 (rnd : Nat → Nat) (g : CGameApp) :
    (g.rand800 rnd).2.log = g.log := rfl

@[simp] theorem ship_rand800 (rnd : Nat → Nat) (g : CGameApp) (sh : Ship) :
    (g.rand800 rnd).2.ship sh = g.ship sh := by
  cases sh <;> rfl

@[simp] theorem bullet_rand800 (rnd : Nat → Nat) (g : CGameApp) :
    (g.rand800 rnd).2.bullet = g.bullet := rfl

@[simp] theorem nextBullet_setShip (g : CGameApp) (sh : Ship) (p : CPlayer) :
    (g.setShip sh p).nextBullet = g.nextBullet := by
  cases sh <;> rfl

@[simp] theorem nextBullet_emit (g : CGameApp) (e : Event) :
    (g.emit e).nextBullet = g.nextBullet := rfl

@[simp] theorem nextBullet_rand800 (rnd : Nat → Nat) (g : CGameApp) :
    (g.rand800 rnd).2.nextBullet = g.nextBullet := rfl

theorem rand800_lt (rnd : Nat → Nat) (g : CGameApp) : (g.rand800 rnd).1 < 800 :=
  Nat.mod_lt _ (by decide)

theorem shipGuard_iff (sh : Ship) (g : CGameApp) (i : SpriteManipulation) :
    shipGuard sh g i = true ↔
      CollisionFlag (g.ship sh).toSpriteManipulation i = true
        ∧ (g.ship sh).exploding = false ∧ (g.ship sh).alive = true := by
  simp [shipGuard, CPlayer.CurrentlyExploding, CPlayer.isAlive, and_assoc]

/-! ## Every test of the pass is a `PassStep` -/

theorem PassStep.of_eq (g : CGameApp) : PassStep g g :=
  PassStep.frame g g rfl rfl rfl rfl rfl

theorem shipExplodeTest_step (rnd : Nat → Nat) (sh : Ship) (g : CGameApp)
    (i : SpriteManipulation) : PassStep g (shipExplodeTest rnd sh g i).1 := by
  unfold shipExplodeTest
  split
  · rename_i h
    obtain ⟨-, h2, h3⟩ := (shipGuard_iff sh g i).1 h
    refine PassStep.explode sh _ _ h2 h3 ?_ ?_ ?_ ?_ ?_
    · simp
    · intro o ho
      simp [ship_setShip_ne _ _ _ _ ho]
    · simp
    · simp
    · simp
  · exact PassStep.of_eq g

theorem shipLifeTest_step (rnd : Nat → Nat) (sh : Ship) (g : CGameApp)
    (i : BonusLives) : PassStep g (shipLifeTest rnd sh g i).1 := by
  unfold shipLifeTest
  split
  · rename_i h
    obtain ⟨-, h2, h3⟩ := (shipGuard_iff sh g i).1 h
    refine PassStep.life sh _ _ h2 h3 ?_ ?_ ?_ ?_ ?_
    · simp
    · intro o ho
      simp [ship_setShip_ne _ _ _ _ ho]
    · simp
    · simp
    · simp
  · exact PassStep.of_eq g

theorem shipEnemyBulletTest_step (sh : Ship) (g : CGameApp) (j : Bullet) :
    PassStep g (shipEnemyBulletTest sh g j) := by
  unfold shipEnemyBulletTest
  split
  · rename_i h
    obtain ⟨-, h2, h3⟩ := (shipGuard_iff sh g _).1 h
    refine PassStep.explode sh _ _ h2 h3 ?_ ?_ ?_ ?_ ?_
    · simp
    · intro o ho
      simp [ship_setShip_ne _ _ _ _ ho]
    · simp
    · simp
    · simp
  · exact PassStep.of_eq g

theorem crateBulletTest_step (rnd : Nat → Nat) (gi : CGameApp × Crate) (it : Bullet) :
    PassStep gi.1 (crateBulletTest rnd gi it).1 := by
  unfold crateBulletTest
  split
  · exact PassStep.score 1 _ _ (Or.inl rfl) rfl rfl rfl rfl rfl
  · exact PassStep.of_eq _

theorem enemyBulletTest_step (rnd : Nat → Nat) (gi : CGameApp × Enemy) (it : Bullet) :
    PassStep gi.1 (enemyBulletTest rnd gi it).1 := by
  unfold enemyBulletTest
  split
  · exact PassStep.score 10 _ _ (Or.inr rfl) rfl rfl rfl rfl rfl
  · exact PassStep.of_eq _

/-! ## Loops are runs of tests -/

theorem forEach_run {α : Type} (body : CGameApp → α → CGameApp × α)
    (hb : ∀ g i, PassRun g (body g i).1) :
    ∀ (l : List α) (g : CGameApp), PassRun g (forEach body g l).1
  | [], _ => Relation.ReflTransGen.refl
  | i :: rest, g => (hb g i).trans (forEach_run body hb rest (body g i).1)

theorem foldl_pair_run {α β : Type} (f : CGameApp × α → β → CGameApp × α)
    (hf : ∀ gi it, PassRun gi.1 (f gi it).1) :
    ∀ (l : List β) (gi : CGameApp × α), PassRun gi.1 (l.foldl f gi).1
  | [], _ => Relation.ReflTransGen.refl
  | it :: rest, gi => (hf gi it).trans (foldl_pair_run f hf rest (f gi it))

theorem foldl_run {β : Type} (f : CGameApp → β → CGameApp)
    (hf : ∀ g it, PassRun g (f g it)) :
    ∀ (l : List β) (g : CGameApp), PassRun g (l.foldl f g)
  | [], _ => Relation.ReflTransGen.refl
  | it :: rest, g => (hf g it).trans (foldl_run f hf rest (f g it))

theorem cratesBody_run (rnd : Nat → Nat) (g : CGameApp) (i : Crate) :
    PassRun g (cratesBody rnd g i).1 :=
  (Relation.ReflTransGen.single (shipExplodeTest_step rnd .player g i)).tail
    (shipExplodeTest_step rnd .ally _ _)

theorem bonusBody_run (rnd : Nat → Nat) (g : CGameApp) (i : BonusLives) :
    PassRun g (bonusBody rnd g i).1 :=
  (Relation.ReflTransGen.single (shipLifeTest_step rnd .player g i)).tail
    (shipLifeTest_step rnd .ally _ _)

theorem crateBulletsBody_run (rnd : Nat → Nat) (g : CGameApp) (i : Crate) :
    PassRun g (crateBulletsBody rnd g i).1 :=
  foldl_pair_run (crateBulletTest rnd)
    (fun gi it => Relation.ReflTransGen.single (crateBulletTest_step rnd gi it)) g.bullet (g, i)

theorem enemiesBody_run (rnd : Nat → Nat) (g : CGameApp) (i : Enemy) :
    PassRun g (enemiesBody rnd g i).1 :=
  (Relation.ReflTransGen.single
    (shipExplodeTest_step rnd .player g i.toSpriteManipulation)).tail
    (shipExplodeTest_step rnd .ally _ _)

theorem enemyShotsBody_run (g : CGameApp) (i : Enemy) :
    PassRun g (enemyShotsBody g i).1 :=
  foldl_run enemyShotBody
    (fun g j => (Relation.ReflTransGen.single (shipEnemyBulletTest_step .player g j)).tail
      (shipEnemyBulletTest_step .ally _ j)) i.bullets g

theorem enemyBulletsBody_run (rnd : Nat → Nat) (g : CGameApp) (i : Enemy) :
    PassRun g (enemyBulletsBody rnd g i).1 :=
  foldl_pair_run (enemyBulletTest rnd)
    (fun gi it => Relation.ReflTransGen.single (enemyBulletTest_step rnd gi it)) g.bullet (g, i)

theorem PassRun.frame (a b : CGameApp) (h1 : b.m_pPlayer = a.m_pPlayer)
    (h2 : b.ally_pPlayer = a.ally_pPlayer) (h3 : b.log = a.log)
    (h4 : b.bullet = a.bullet) (h5 : b.nextBullet = a.nextBullet) : PassRun a b :=
  Relation.ReflTransGen.single (PassStep.frame a b h1 h2 h3 h4 h5)

theorem cratesLoop_run (rnd : Nat → Nat) (g : CGameApp) : PassRun g (cratesLoop rnd g) :=
  (forEach_run _ (cratesBody_run rnd) g.crates g).trans (PassRun.frame _ _ rfl rfl rfl rfl rfl)

theorem bonusLoop_run (rnd : Nat → Nat) (g : CGameApp) : PassRun g (bonusLoop rnd g) :=
  (forEach_run _ (bonusBody_run rnd) g.bonusLives g).trans (PassRun.frame _ _ rfl rfl rfl rfl rfl)

theorem crateBulletsLoop_run (rnd : Nat → Nat) (g : CGameApp) :
    PassRun g (crateBulletsLoop rnd g) :=
  (forEach_run _ (crateBulletsBody_run rnd) g.crates g).trans
    (PassRun.frame _ _ rfl rfl rfl rfl rfl)

theorem enemiesLoop_run (rnd : Nat → Nat) (g : CGameApp) : PassRun g (enemiesLoop rnd g) :=
  (forEach_run _ (enemiesBody_run rnd) g.enemies g).trans (PassRun.frame _ _ rfl rfl rfl rfl rfl)

theorem enemyShotsLoop_run (g : CGameApp) : PassRun g (enemyShotsLoop g) :=
  (forEach_run _ enemyShotsBody_run g.enemies g).trans (PassRun.frame _ _ rfl rfl rfl rfl rfl)

theorem enemyBulletsLoop_run (rnd : Nat → Nat) (g : CGameApp) :
    PassRun g (enemyBulletsLoop rnd g) :=
  (forEach_run _ (enemyBulletsBody_run rnd) g.enemies g).trans
    (PassRun.frame _ _ rfl rfl rfl rfl rfl)

/-- The whole pass is a run of tests. -/
theorem ObjectCollision_run (rnd : Nat → Nat) (g : CGameApp) :
    PassRun g (ObjectCollision rnd g) := by
  unfold ObjectCollision
  refine (PassRun.frame g { g with randCalls := 0 } rfl rfl rfl rfl rfl).trans ?_
  refine (cratesLoop_run rnd _).trans ?_
  refine (bonusLoop_run rnd _).trans ?_
  refine (crateBulletsLoop_run rnd _).trans ?_
  refine (enemiesLoop_run rnd _).trans ?_
  refine (enemyShotsLoop_run _).trans ?_
  exact enemyBulletsLoop_run rnd _

/-! ## Facts on lists of events -/

theorem pointsOf_append (sh : Ship) (a b : List Event) :
    pointsOf sh (a ++ b) = pointsOf sh a + pointsOf sh b := by
  induction a with
  | nil => simp [pointsOf]
  | cons e rest ih =>
    cases e <;> simp [pointsOf, ih, Nat.add_assoc]

theorem after_append_neutral {α : Type} (x l : α) (evs es : List α)
    (h : ∀ pre post, evs = pre ++ x :: post → l ∉ post)
    (hx : x ∉ es) (hl : l ∉ es) :
    ∀ pre post, evs ++ es = pre ++ x :: post → l ∉ post := by
  intro pre post he
  rcases List.append_eq_append_iff.1 he with ⟨a, -, h2⟩ | ⟨c, h1, h2⟩
  · exact absurd (h2 ▸ List.mem_append_right a (List.mem_cons_self x post)) hx
  · cases c with
    | nil =>
      simp only [List.nil_append] at h2
      exact absurd (h2 ▸ List.mem_cons_self x post) hx
    | cons y c2 =>
      simp only [List.cons_append, List.cons.injEq] at h2
      obtain ⟨hy, hp⟩ := h2
      subst hy
      rw [hp]
      intro hm
      rcases List.mem_append.1 hm with hm | hm
      · exact h pre c2 h1 hm
      · exact hl hm

theorem after_append_fresh {α : Type} (x l : α) (evs es : List α)
    (hx : x ∉ evs) (hes : ∀ pre post, es = pre ++ x :: post → l ∉ post) :
    ∀ pre post, evs ++ es = pre ++ x :: post → l ∉ post := by
  intro pre post he
  rcases List.append_eq_append_iff.1 he with ⟨a, -, h2⟩ | ⟨c, h1, h2⟩
  · exact hes a post h2
  · cases c with
    | nil =>
      simp only [List.nil_append] at h2
      exact hes [] post (by simpa using h2.symm)
    | cons y c2 =>
      simp only [List.cons_append, List.cons.injEq] at h2
      obtain ⟨hy, -⟩ := h2
      subst hy
      exact absurd (h1 ▸ List.mem_append_right pre (List.mem_cons_self x c2)) hx

/-! ## Facts on the ship methods -/

@[simp] theorem Explode_alive (p : CPlayer) : p.Explode.alive = p.alive := by
  unfold CPlayer.Explode; split <;> rfl

@[simp] theorem Explode_score (p : CPlayer) : p.Explode.score = p.score := by
  unfold CPlayer.Explode; split <;> rfl

theorem Explode_exploding (p : CPlayer) (h1 : p.exploding = false) (h2 : p.alive = true) :
    p.Explode.exploding = true := by
  simp [CPlayer.Explode, h1, h2]

@[simp] theorem addLife_alive (p : CPlayer) : p.addLife.alive = p.alive := rfl

@[simp] theorem addLife_exploding (p : CPlayer) : p.addLife.exploding = p.exploding := rfl

@[simp] theorem addLife_score (p : CPlayer) : p.addLife.score = p.score := rfl

@[simp] theorem incrementScore_alive (p : CPlayer) (n : Nat) :
    (p.incrementScore n).alive = p.alive := rfl

@[simp] theorem incrementScore_exploding (p : CPlayer) (n : Nat) :
    (p.incrementScore n).exploding = p.exploding := rfl

@[simp] theorem incrementScore_score (p : CPlayer) (n : Nat) :
    (p.incrementScore n).score = p.score + n := rfl

/-! ## The invariant of a run -/

theorem RunInv.refl (sh : Ship) (g : CGameApp) : RunInv sh g g [] := by
  refine ⟨by simp, rfl, id, by simp, by simp, by simp, ?_, by simp [pointsOf], by simp⟩
  intro pre post h
  cases pre <;> simp at h

/-- Calls that concern neither the explosion nor the lives nor the score of
`sh` keep the invariant, when the ship keeps its flags and its score. -/
theorem RunInv.neutral (sh : Ship) (g0 b c : CGameApp) (evs es : List Event)
    (h : RunInv sh g0 b evs) (hlog : c.log = b.log ++ es)
    (ha : (c.ship sh).alive = (b.ship sh).alive)
    (he : (c.ship sh).exploding = (b.ship sh).exploding)
    (hs : (c.ship sh).score = (b.ship sh).score)
    (hx : Event.Explode sh ∉ es) (hl : Event.addLife sh ∉ es)
    (hp : ∀ s n, Event.incrementScore s n ∉ es) :
    RunInv sh g0 c (evs ++ es) := by
  obtain ⟨i1, i2, i3, i4, i5, i6, i7, i8, i9⟩ := h
  have hpts : pointsOf sh es = 0 := by
    clear hlog hx hl
    induction es with
    | nil => rfl
    | cons e rest ih =>
      have hr : ∀ s n, Event.incrementScore s n ∉ rest :=
        fun s n hm => hp s n (List.mem_cons_of_mem _ hm)
      cases e with
      | incrementScore s n => exact absurd (List.mem_cons_self _ _) (hp s n)
      | _ => simpa [pointsOf] using ih hr
  refine ⟨?_, ?_, ?_, ?_, ?_, ?_, ?_, ?_, ?_⟩
  · rw [hlog, i1, List.append_assoc]
  · rw [ha, i2]
  · intro h0; rw [he]; exact i3 h0
  · intro hm
    rw [he]
    rcases List.mem_append.1 hm with hm | hm
    · exact i4 hm
    · exact absurd hm hx
  · rw [List.count_append, List.count_eq_zero_of_not_mem hx]
    simpa using i5
  · intro h0
    obtain ⟨a1, a2⟩ := i6 h0
    constructor
    · intro hm
      rcases List.mem_append.1 hm with hm | hm
      · exact a1 hm
      · exact hx hm
    · intro hm
      rcases List.mem_append.1 hm with hm | hm
      · exact a2 hm
      · exact hl hm
  · exact after_append_neutral _ _ evs es i7 hx hl
  · rw [hs, i8, pointsOf_append, hpts, Nat.add_zero]
  · intro s n hm
    rcases List.mem_append.1 hm with hm | hm
    · exact i9 s n hm
    · exact absurd hm (hp s n)

/-- The ship `sh`, alive and not exploding, explodes. -/
theorem RunInv.explode (sh : Ship) (g0 b c : CGameApp) (evs : List Event) (t : Event)
    (h : RunInv sh g0 b evs) (ht1 : t ≠ Event.Explode sh) (ht2 : t ≠ Event.addLife sh)
    (ht3 : ∀ s n, t ≠ Event.incrementScore s n)
    (hlog : c.log = b.log ++ [t, Event.Explode sh])
    (h1 : (b.ship sh).exploding = false) (h2 : (b.ship sh).alive = true)
    (hc : c.ship sh = (b.ship sh).Explode) :
    RunInv sh g0 c (evs ++ [t, Event.Explode sh]) := by
  obtain ⟨i1, i2, i3, i4, i5, i6, i7, i8, i9⟩ := h
  have hnot : Event.Explode sh ∉ evs := by
    intro hm
    rw [i4 hm] at h1
    exact Bool.noConfusion h1
  have hexp : (c.ship sh).exploding = true := by
    rw [hc]; exact Explode_exploding _ h1 h2
  refine ⟨?_, ?_, ?_, ?_, ?_, ?_, ?_, ?_, ?_⟩
  · rw [hlog, i1, List.append_assoc]
  · rw [hc, Explode_alive, i2]
  · intro _; exact hexp
  · intro _; exact hexp
  · rw [List.count_append, List.count_eq_zero_of_not_mem hnot]
    simp [List.count_cons, ht1]
  · intro h0
    rcases h0 with h0 | h0
    · rw [i3 h0] at h1
      exact Bool.noConfusion h1
    · rw [i2, h0] at h2
      exact Bool.noConfusion h2
  · refine after_append_fresh _ _ evs _ hnot ?_
    intro pre post he
    cases pre with
    | nil =>
      simp only [List.nil_append, List.cons.injEq] at he
      exact absurd he.1 ht1
    | cons y pre2 =>
      cases pre2 with
      | nil =>
        simp only [List.cons_append, List.nil_append, List.cons.injEq] at he
        rw [← he.2.2]
        simp
      | cons z pre3 =>
        simp at he
  · rw [hc, Explode_score, i8, pointsOf_append]
    have : pointsOf sh [t, Event.Explode sh] = 0 := by
      cases t <;> first | rfl | exact absurd rfl (ht3 _ _)
    rw [this, Nat.add_zero]
  · intro s n hm
    rcases List.mem_append.1 hm with hm | hm
    · exact i9 s n hm
    · simp only [List.mem_cons, List.mem_singleton, List.not_mem_nil, or_false] at hm
      rcases hm with hm | hm
      · exact absurd hm.symm (ht3 s n)
      · exact Event.noConfusion hm

/-- The ship `sh`, alive and not exploding, gains a life. -/
theorem RunInv.life (sh : Ship) (g0 b c : CGameApp) (evs : List Event) (t : Event)
    (h : RunInv sh g0 b evs) (ht1 : t ≠ Event.Explode sh)
    (ht3 : ∀ s n, t ≠ Event.incrementScore s n)
    (hlog : c.log = b.log ++ [t, Event.addLife sh])
    (h1 : (b.ship sh).exploding = false) (h2 : (b.ship sh).alive = true)
    (hc : c.ship sh = (b.ship sh).addLife) :
    RunInv sh g0 c (evs ++ [t, Event.addLife sh]) := by
  obtain ⟨i1, i2, i3, i4, i5, i6, i7, i8, i9⟩ := h
  have hnot : Event.Explode sh ∉ evs := by
    intro hm
    rw [i4 hm] at h1
    exact Bool.noConfusion h1
  have hx : Event.Explode sh ∉ [t, Event.addLife sh] := by
    simp only [List.mem_cons, List.mem_singleton, List.not_mem_nil, or_false, not_or]
    exact ⟨fun e => ht1 e.symm, fun e => Event.noConfusion e⟩
  refine ⟨?_, ?_, ?_, ?_, ?_, ?_, ?_, ?_, ?_⟩
  · rw [hlog, i1, List.append_assoc]
  · rw [hc, addLife_alive, i2]
  · intro h0
    rw [i3 h0] at h1
    exact Bool.noConfusion h1
  · intro hm
    rcases List.mem_append.1 hm with hm | hm
    · exact absurd hm hnot
    · exact absurd hm hx
  · rw [List.count_append, List.count_eq_zero_of_not_mem hnot,
      List.count_eq_zero_of_not_mem hx]
    exact Nat.zero_le _
  · intro h0
    rcases h0 with h0 | h0
    · rw [i3 h0] at h1
      exact Bool.noConfusion h1
    · rw [i2, h0] at h2
      exact Bool.noConfusion h2
  · refine after_append_fresh _ _ evs _ hnot ?_
    intro pre post he
    exact absurd (he ▸ List.mem_append_right pre (List.mem_cons_self _ post)) hx
  · rw [hc, addLife_score, i8, pointsOf_append]
    have : pointsOf sh [t, Event.addLife sh] = 0 := by
      cases t <;> first | rfl | exact absurd rfl (ht3 _ _)
    rw [this, Nat.add_zero]
  · intro s n hm
    rcases List.mem_append.1 hm with hm | hm
    · exact i9 s n hm
    · simp only [List.mem_cons, List.mem_singleton, List.not_mem_nil, or_false] at hm
      rcases hm with hm | hm
      · exact absurd hm.symm (ht3 s n)
      · exact Event.noConfusion hm

/-- Points are credited: to `m_pPlayer`, 1 or 10 at a time. -/
theorem RunInv.score (sh : Ship) (g0 b c : CGameApp) (evs : List Event) (n : Nat)
    (h : RunInv sh g0 b evs) (hn : n = 1 ∨ n = 10)
    (hlog : c.log = b.log ++ [Event.incrementScore .player n])
    (hp : c.m_pPlayer = b.m_pPlayer.incrementScore n)
    (hal : c.ally_pPlayer = b.ally_pPlayer) :
    RunInv sh g0 c (evs ++ [Event.incrementScore .player n]) := by
  obtain ⟨i1, i2, i3, i4, i5, i6, i7, i8, i9⟩ := h
  have hx : Event.Explode sh ∉ [Event.incrementScore Ship.player n] := by simp
  have hl : Event.addLife sh ∉ [Event.incrementScore Ship.player n] := by simp
  have ha : (c.ship sh).alive = (b.ship sh).alive := by
    cases sh
    · simp [hp]
    · simp [hal]
  have he : (c.ship sh).exploding = (b.ship sh).exploding := by
    cases sh
    · simp [hp]
    · simp [hal]
  refine ⟨?_, ?_, ?_, ?_, ?_, ?_, ?_, ?_, ?_⟩
  · rw [hlog, i1, List.append_assoc]
  · rw [ha, i2]
  · intro h0; rw [he]; exact i3 h0
  · intro hm
    rw [he]
    rcases List.mem_append.1 hm with hm | hm
    · exact i4 hm
    · exact absurd hm hx
  · rw [List.count_append, List.count_eq_zero_of_not_mem hx]
    simpa using i5
  · intro h0
    obtain ⟨a1, a2⟩ := i6 h0
    constructor
    · intro hm
      rcases List.mem_append.1 hm with hm | hm
      · exact a1 hm
      · exact hx hm
    · intro hm
      rcases List.mem_append.1 hm with hm | hm
      · exact a2 hm
      · exact hl hm
  · exact after_append_neutral _ _ evs _ i7 hx hl
  · rw [pointsOf_append]
    cases sh
    · have i8b : b.m_pPlayer.score = g0.m_pPlayer.score + pointsOf Ship.player evs := i8
      simp only [ship_player, hp, incrementScore_score, pointsOf, if_true, Nat.add_zero]
      omega
    · have i8b : b.ally_pPlayer.score = g0.ally_pPlayer.score + pointsOf Ship.ally evs := i8
      simp only [ship_ally, hal, pointsOf]
      simpa using i8b
  · intro s m hm
    rcases List.mem_append.1 hm with hm | hm
    · exact i9 s m hm
    · simp only [List.mem_singleton, Event.incrementScore.injEq] at hm
      exact ⟨hm.1, hm.2 ▸ hn⟩

/-- One test keeps the invariant. -/
theorem RunInv.step (sh : Ship) (g0 b c : CGameApp) (evs : List Event)
    (h : RunInv sh g0 b evs) (st : PassStep b c) : ∃ evs2, RunInv sh g0 c evs2 := by
  cases st with
  | explode sh2 _ _ h1 h2 h3 h4 h5 h6 _ =>
    by_cases e : sh2 = sh
    · subst e
      exact ⟨_, RunInv.explode sh2 g0 b c evs _ h (by simp) (by simp) (by simp) h5 h1 h2 h3⟩
    · have hsame : c.ship sh = b.ship sh := h4 sh (fun e2 => e e2.symm)
      refine ⟨_, RunInv.neutral sh g0 b c evs _ h h5 (by rw [hsame]) (by rw [hsame])
        (by rw [hsame]) ?_ (by simp) (by simp)⟩
      simp only [List.mem_cons, List.mem_singleton, List.not_mem_nil, or_false, not_or]
      exact ⟨fun e2 => Event.noConfusion e2, fun e2 => e (Event.Explode.inj e2).symm⟩
  | life sh2 _ _ h1 h2 h3 h4 h5 h6 _ =>
    by_cases e : sh2 = sh
    · subst e
      exact ⟨_, RunInv.life sh2 g0 b c evs _ h (by simp) (by simp) h5 h1 h2 h3⟩
    · have hsame : c.ship sh = b.ship sh := h4 sh (fun e2 => e e2.symm)
      refine ⟨_, RunInv.neutral sh g0 b c evs _ h h5 (by rw [hsame]) (by rw [hsame])
        (by rw [hsame]) (by simp) ?_ (by simp)⟩
      simp only [List.mem_cons, List.mem_singleton, List.not_mem_nil, or_false, not_or]
      exact ⟨fun e2 => Event.noConfusion e2, fun e2 => e (Event.addLife.inj e2).symm⟩
  | score n _ _ hn h1 h2 h3 h4 _ =>
    exact ⟨_, RunInv.score sh g0 b c evs n h hn h3 h1 h2⟩
  | frame _ _ h1 h2 h3 h4 _ =>
    have hsame : c.ship sh = b.ship sh := by
      cases sh
      · exact h1
      · exact h2
    refine ⟨evs ++ [], RunInv.neutral sh g0 b c evs [] h (by simpa using h3) (by rw [hsame])
      (by rw [hsame]) (by rw [hsame]) (by simp) (by simp) (by simp)⟩

/-- A run of tests keeps the invariant. -/
theorem RunInv.of_run (sh : Ship) (g0 g : CGameApp) (h : PassRun g0 g) :
    ∃ evs, RunInv sh g0 g evs := by
  induction h with
  | refl => exact ⟨[], RunInv.refl sh g0⟩
  | tail _ st ih =>
    obtain ⟨evs, hinv⟩ := ih
    exact RunInv.step sh g0 _ _ evs hinv st

/-- The invariant holds after `ObjectCollision`, for the calls of the pass. -/
theorem ObjectCollision_inv (rnd : Nat → Nat) (g : CGameApp) (sh : Ship) :
    RunInv sh g (ObjectCollision rnd g) (passEvents rnd g) := by
  obtain ⟨evs, h⟩ := RunInv.of_run sh g _ (ObjectCollision_run rnd g)
  have : passEvents rnd g = evs := by
    unfold passEvents
    rw [h.1]
    simp
  rw [this]
  exact h

/-! ## Decimal output and input -/

theorem digitChar_isDigit (d : Nat) (h : d < 10) : (Nat.digitChar d).isDigit = true := by
  interval_cases d <;> rfl

theorem digitChar_value (d : Nat) (h : d < 10) : (Nat.digitChar d).toNat - 48 = d := by
  interval_cases d <;> rfl

theorem digitsValue_append (acc : Nat) (a b : List Char) :
    digitsValue acc (a ++ b) = digitsValue (digitsValue acc a) b := by
  simp [digitsValue, List.foldl_append]

/-- What `Nat.toDigitsCore` puts in front of `ds`: a non-empty run of decimal
digits whose value is `n`. -/
theorem toDigitsCore_digits : ∀ (fuel n : Nat) (ds : List Char), n < fuel →
    ∃ pre, Nat.toDigitsCore 10 fuel n ds = pre ++ ds ∧ pre ≠ []
      ∧ (∀ c ∈ pre, c.isDigit = true)
      ∧ ∀ acc, digitsValue acc pre = acc * 10 ^ pre.length + n := by
  intro fuel
  induction fuel with
  | zero => intro n ds h; exact absurd h (Nat.not_lt_zero n)
  | succ fuel ih =>
    intro n ds h
    have hd : n % 10 < 10 := Nat.mod_lt _ (by decide)
    by_cases h0 : n / 10 = 0
    · refine ⟨[Nat.digitChar (n % 10)], ?_, by simp, ?_, ?_⟩
      · simp [Nat.toDigitsCore, h0]
      · intro c hc
        rw [List.mem_singleton.1 hc]
        exact digitChar_isDigit _ hd
      · intro acc
        have hn : n % 10 = n := Nat.mod_eq_of_lt (by omega)
        simp only [digitsValue, List.foldl_cons, List.foldl_nil, List.length_singleton,
          pow_one, digitChar_value _ hd]
        omega
    · have hlt : n / 10 < fuel := by omega
      obtain ⟨pre, e1, _, e3, e4⟩ := ih (n / 10) (Nat.digitChar (n % 10) :: ds) hlt
      refine ⟨pre ++ [Nat.digitChar (n % 10)], ?_, by simp, ?_, ?_⟩
      · simp [Nat.toDigitsCore, h0, e1]
      · intro c hc
        rcases List.mem_append.1 hc with hc | hc
        · exact e3 c hc
        · rw [List.mem_singleton.1 hc]
          exact digitChar_isDigit _ hd
      · intro acc
        rw [digitsValue_append, e4 acc]
        simp only [digitsValue, List.foldl_cons, List.foldl_nil, List.length_append,
          List.length_singleton, digitChar_value _ hd, pow_succ]
        have := Nat.div_add_mod n 10
        nlinarith [this]

/-- The decimal form of a natural number, as printed. -/
theorem toString_nat_digits (n : Nat) :
    ∃ pre, (toString n).data = pre ∧ pre ≠ []
      ∧ (∀ c ∈ pre, c.isDigit = true) ∧ digitsValue 0 pre = n := by
  obtain ⟨pre, e1, e2, e3, e4⟩ := toDigitsCore_digits (n + 1) n [] (Nat.lt_succ_self n)
  refine ⟨pre, ?_, e2, e3, by simpa using e4 0⟩
  show (Nat.toDigits 10 n).asString.data = pre
  simp [Nat.toDigits, e1, List.asString]

theorem takeWhile_digits (pre rest : List Char) (h : ∀ c ∈ pre, c.isDigit = true)
    (hr : ∀ c r, rest = c :: r → c.isDigit = false) :
    (pre ++ rest).takeWhile Char.isDigit = pre
      ∧ (pre ++ rest).dropWhile Char.isDigit = rest := by
  induction pre with
  | nil =>
    cases rest with
    | nil => simp
    | cons c r => simp [List.takeWhile, List.dropWhile, hr c r rfl]
  | cons a pre ih =>
    have ha : a.isDigit = true := h a (List.mem_cons_self _ _)
    have := ih (fun c hc => h c (List.mem_cons_of_mem _ hc))
    simp [List.takeWhile, List.dropWhile, ha, this]

theorem isSpace_of_isDigit (c : Char) (h : c.isDigit = true) : isSpace c = false := by
  have h1 : c ≠ ' ' := by rintro rfl; exact absurd h (by decide)
  have h2 : c ≠ '\t' := by rintro rfl; exact absurd h (by decide)
  have h3 : c ≠ '\n' := by rintro rfl; exact absurd h (by decide)
  have h4 : c ≠ '\r' := by rintro rfl; exact absurd h (by decide)
  have h5 : c.toNat ≠ 11 := by
    intro e
    have hc : c = Char.ofNat 11 := by rw [← e, Char.ofNat_toNat]
    subst hc
    exact absurd h (by decide)
  have h6 : c.toNat ≠ 12 := by
    intro e
    have hc : c = Char.ofNat 12 := by rw [← e, Char.ofNat_toNat]
    subst hc
    exact absurd h (by decide)
  simp [isSpace, h1, h2, h3, h4, h5, h6]

/-- Reading a run of digits that begins the stream and is followed by
something other than a digit. -/
theorem extractInt_digits (pre rest : List Char) (hne : pre ≠ [])
    (hd : ∀ c ∈ pre, c.isDigit = true)
    (hr : ∀ c r, rest = c :: r → c.isDigit = false)
    (hv : isInt (digitsValue 0 pre : Nat)) :
    extractInt (pre ++ rest) = some (((digitsValue 0 pre : Nat) : Int), rest) := by
  obtain ⟨c, p, rfl⟩ := List.exists_cons_of_ne_nil hne
  have hc : c.isDigit = true := hd c (List.mem_cons_self _ _)
  have hsp : isSpace c = false := isSpace_of_isDigit c hc
  have hm : c ≠ '-' := by rintro rfl; exact absurd hc (by decide)
  have hp : c ≠ '+' := by rintro rfl; exact absurd hc (by decide)
  obtain ⟨t1, t2⟩ := takeWhile_digits (c :: p) rest hd hr
  have hsk : skipSpace (c :: p ++ rest) = c :: p ++ rest := by
    simp [skipSpace, hsp]
  unfold extractInt
  rw [hsk]
  have hsig : (match c :: p ++ rest with
      | '-' :: r => (true, r)
      | '+' :: r => (false, r)
      | _ => (false, c :: p ++ rest)) = (false, c :: p ++ rest) := by
    split
    · rename_i heq
      exact absurd (List.cons.inj heq).1 hm
    · rename_i heq
      exact absurd (List.cons.inj heq).1 hp
    · rfl
  simp only [hsig, t1, t2]
  simp [hv]

/-- Reading a minus sign and a run of digits. -/
theorem extractInt_neg_digits (pre rest : List Char) (hne : pre ≠ [])
    (hd : ∀ c ∈ pre, c.isDigit = true)
    (hr : ∀ c r, rest = c :: r → c.isDigit = false)
    (hv : isInt (-((digitsValue 0 pre : Nat) : Int))) :
    extractInt ('-' :: pre ++ rest) = some (-((digitsValue 0 pre : Nat) : Int), rest) := by
  obtain ⟨t1, t2⟩ := takeWhile_digits pre rest hd hr
  have hsk : skipSpace ('-' :: pre ++ rest) = '-' :: (pre ++ rest) := by
    have : isSpace '-' = false := by decide
    simp [skipSpace, this]
  unfold extractInt
  rw [hsk]
  simp only [t1, t2]
  have : pre.isEmpty = false := by
    cases pre with
    | nil => exact absurd rfl hne
    | cons _ _ => rfl
  simp [this, hv]

/-- Reading back a printed `int` that is followed by something other than a
digit: the value is recovered and the stream stands right after the number. -/
theorem extractInt_toString (v : Int) (hv : isInt v) (rest : List Char)
    (hr : ∀ c r, rest = c :: r → c.isDigit = false) :
    extractInt ((toString v).data ++ rest) = some (v, rest) := by
  cases v with
  | ofNat n =>
    obtain ⟨pre, e1, e2, e3, e4⟩ := toString_nat_digits n
    have hs : (toString (Int.ofNat n)).data = pre := e1
    rw [hs]
    have := extractInt_digits pre rest e2 e3 hr (by rw [e4]; exact hv)
    rw [e4] at this
    exact this
  | negSucc n =>
    obtain ⟨pre, e1, e2, e3, e4⟩ := toString_nat_digits (n + 1)
    have hs : (toString (Int.negSucc n)).data = '-' :: pre := by
      show ("-" ++ toString (n + 1)).data = '-' :: pre
      rw [String.data_append, e1]
      rfl
    rw [hs]
    have hneg : -(((n + 1 : Nat)) : Int) = Int.negSucc n := rfl
    have := extractInt_neg_digits pre rest e2 e3 hr (by rw [e4, hneg]; exact hv)
    rw [e4, hneg] at this
    exact this

/-- Skipping the separator written by `SaveGame` before the next number. -/
theorem extractInt_skip (c : Char) (hc : isSpace c = true) (cs : List Char) :
    extractInt (c :: cs) = extractInt cs := by
  unfold extractInt
  simp [skipSpace, hc]

theorem truncToInt_intCast (v : Int) : truncToInt (v : ℚ) = v := by
  simp [truncToInt]

theorem isSpace_not_digit (c : Char) (hc : isSpace c = true) (cs : List Char) :
    ∀ d r, c :: cs = d :: r → d.isDigit = false := by
  intro d r h
  have hd : d = c := (List.cons.inj h).1.symm
  subst hd
  cases hdig : d.isDigit with
  | false => rfl
  | true => rw [isSpace_of_isDigit d hdig] at hc; exact Bool.noConfusion hc

/-- The four extractions of `loadGame` on a text of the form written by
`SaveGame`. -/
theorem loadGame_of_text (x1 y1 x2 y2 : Int) (h1 : isInt x1) (h2 : isInt y1)
    (h3 : isInt x2) (h4 : isInt y2) (h : CGameApp) :
    loadGame (toString x1 ++ " " ++ toString y1 ++ "\n"
        ++ toString x2 ++ " " ++ toString y2 ++ "\n") h
      = some { h with
          m_pPlayer := { h.m_pPlayer with Position := ⟨(x1 : ℚ), (y1 : ℚ)⟩ },
          ally_pPlayer := { h.ally_pPlayer with Position := ⟨(x2 : ℚ), (y2 : ℚ)⟩ } } := by
  have sp : isSpace ' ' = true := by decide
  have nl : isSpace '\n' = true := by decide
  have d1 : (" " : String).data = [' '] := rfl
  have d2 : ("\n" : String).data = ['\n'] := rfl
  unfold loadGame
  simp only [String.data_append, d1, d2, List.append_assoc, List.singleton_append,
    List.cons_append, List.nil_append]
  rw [extractInt_toString x1 h1 _ (isSpace_not_digit ' ' sp _)]
  simp only []
  rw [extractInt_skip ' ' sp, extractInt_toString y1 h2 _ (isSpace_not_digit '\n' nl _)]
  simp only []
  rw [extractInt_skip '\n' nl, extractInt_toString x2 h3 _ (isSpace_not_digit ' ' sp _)]
  simp only []
  rw [extractInt_skip ' ' sp, extractInt_toString y2 h4 _ (isSpace_not_digit '\n' nl _)]

/-- C3: when the coordinates of the two ships truncate to the `int`s
(x1, y1) and (x2, y2), `SaveGame` writes the two lines "x1 y1" and "x2 y2",
`loadGame` on that text sets the player to (x1, y1) and the ally to (x2, y2)
and changes nothing else, negative coordinates included; on positions that are
integers, saving then loading gives the state back. -/
theorem save_load_roundtrip (g h : CGameApp) (x1 y1 x2 y2 : Int)
    (e1 : truncToInt g.m_pPlayer.Position.x = x1)
    (e2 : truncToInt g.m_pPlayer.Position.y = y1)
    (e3 : truncToInt g.ally_pPlayer.Position.x = x2)
    (e4 : truncToInt g.ally_pPlayer.Position.y = y2)
    (h1 : isInt x1) (h2 : isInt y1) (h3 : isInt x2) (h4 : isInt y2) :
    SaveGame g = toString x1 ++ " " ++ toString y1 ++ "\n"
        ++ toString x2 ++ " " ++ toString y2 ++ "\n"
    ∧ loadGame (SaveGame g) h
        = some { h with
            m_pPlayer := { h.m_pPlayer with Position := ⟨(x1 : ℚ), (y1 : ℚ)⟩ },
            ally_pPlayer := { h.ally_pPlayer with Position := ⟨(x2 : ℚ), (y2 : ℚ)⟩ } }
    ∧ (g.m_pPlayer.Position = ⟨(x1 : ℚ), (y1 : ℚ)⟩ →
        g.ally_pPlayer.Position = ⟨(x2 : ℚ), (y2 : ℚ)⟩ →
        loadGame (SaveGame g) g = some g) := by
  have hs : SaveGame g = toString x1 ++ " " ++ toString y1 ++ "\n"
      ++ toString x2 ++ " " ++ toString y2 ++ "\n" := by
    simp only [SaveGame, e1, e2, e3, e4]
  refine ⟨hs, ?_, ?_⟩
  · rw [hs]
    exact loadGame_of_text x1 y1 x2 y2 h1 h2 h3 h4 h
  · intro p1 p2
    rw [hs, loadGame_of_text x1 y1 x2 y2 h1 h2 h3 h4 g, ← p1, ← p2]

/-- The save file of `driftedGame`, whose ships stand at (-12.5, 400.75) and
(300, -1/3), and the positions read back from it. -/
theorem save_load_roundtrip_witness :
    SaveGame driftedGame = "-12 400\n300 0\n"
    ∧ loadGame (SaveGame driftedGame) startGame
        = some (gameOf (shipAt (-12) 400) (shipAt 300 0)) := by
  have h := save_load_roundtrip driftedGame startGame (-12) 400 300 0
    (by decide!) (by decide!) (by decide!) (by decide!)
    (by decide) (by decide) (by decide) (by decide)
  refine ⟨h.1.trans (by decide), h.2.1.trans ?_⟩
  simp [startGame, gameOf, shipAt]

/-! ## The collision policy -/

/-- C4: the test of a ship against a crate in `ObjectCollision`.  When the two
overlap and the ship is alive and not exploding, the crate moves to
`(x, spriteHeight/2)` with `x` a whole number below 800, the ship's timer is
set and `Explode` is called on the ship, which is then exploding; when the
ship does not overlap, is not alive or is exploding, the test changes nothing.
The first loop of the pass runs this test for the player and then for the
ally on every crate. -/
theorem shipCrate_policy (rnd : Nat → Nat) (sh : Ship) (g : CGameApp) (i : Crate) :
    (CollisionFlag (g.ship sh).toSpriteManipulation i = true →
      (g.ship sh).isAlive = true → (g.ship sh).CurrentlyExploding = false →
      ∃ x : Nat, x < 800
        ∧ (shipExplodeTest rnd sh g i).2
            = { i with Position := ⟨(x : ℚ), ((i.spriteHeight / 2 : Nat) : ℚ)⟩ }
        ∧ (shipExplodeTest rnd sh g i).1.log
            = g.log ++ [Event.SetTimer (timerId sh) 100, Event.Explode sh]
        ∧ ((shipExplodeTest rnd sh g i).1.ship sh) = (g.ship sh).Explode
        ∧ ((shipExplodeTest rnd sh g i).1.ship sh).CurrentlyExploding = true)
    ∧ ((CollisionFlag (g.ship sh).toSpriteManipulation i = false
          ∨ (g.ship sh).isAlive = false ∨ (g.ship sh).CurrentlyExploding = true) →
        shipExplodeTest rnd sh g i = (g, i))
    ∧ cratesBody rnd g i
        = shipExplodeTest rnd .ally (shipExplodeTest rnd .player g i).1
            (shipExplodeTest rnd .player g i).2
    ∧ cratesLoop rnd g
        = { (forEach (cratesBody rnd) g g.crates).1 with
            crates := (forEach (cratesBody rnd) g g.crates).2 } := by
  refine ⟨?_, ?_, rfl, rfl⟩
  · intro h1 h2 h3
    have hg : shipGuard sh g i = true := (shipGuard_iff sh g i).2 ⟨h1, h3, h2⟩
    refine ⟨(g.rand800 rnd).1, rand800_lt rnd g, ?_, ?_, ?_, ?_⟩
    · simp [shipExplodeTest, hg]
    · simp [shipExplodeTest, hg]
    · simp [shipExplodeTest, hg]
    · simp only [shipExplodeTest, hg, if_true, ship_emit, ship_setShip_same, ship_rand800,
        CPlayer.CurrentlyExploding]
      exact Explode_exploding _ h3 h2
  · intro h
    have hg : shipGuard sh g i = false := by
      cases hgv : shipGuard sh g i with
      | false => rfl
      | true =>
        obtain ⟨a, b, c⟩ := (shipGuard_iff sh g i).1 hgv
        rcases h with h | h | h
        · rw [a] at h; exact Bool.noConfusion h
        · rw [show (g.ship sh).isAlive = (g.ship sh).alive from rfl, c] at h
          exact Bool.noConfusion h
        · rw [show (g.ship sh).CurrentlyExploding = (g.ship sh).exploding from rfl, b] at h
          exact Bool.noConfusion h
    simp [shipExplodeTest, hg]

/-- The scenario of the specification: ship at (100, 400) and crate at
(100, 400), both with half extents (16, 16); the random values are 1234, 1235
and so on, so the crate lands at x = 1234 mod 800 = 434, y = 16. -/
theorem shipCrate_policy_witness :
    ∃ x : Nat, x < 800
      ∧ (shipExplodeTest (fun n => 1234 + n) .player startGame (spriteAt 100 400 16 16)).2
          = { spriteAt 100 400 16 16 with
              Position := ⟨(x : ℚ), (((spriteAt 100 400 16 16).spriteHeight / 2 : Nat) : ℚ)⟩ }
      ∧ (shipExplodeTest (fun n => 1234 + n) .player startGame (spriteAt 100 400 16 16)).1.log
          = startGame.log ++ [Event.SetTimer (timerId .player) 100, Event.Explode .player]
      ∧ ((shipExplodeTest (fun n => 1234 + n) .player startGame
            (spriteAt 100 400 16 16)).1.ship .player) = (startGame.ship .player).Explode
      ∧ ((shipExplodeTest (fun n => 1234 + n) .player startGame
            (spriteAt 100 400 16 16)).1.ship .player).CurrentlyExploding = true :=
  (shipCrate_policy (fun n => 1234 + n) .player startGame (spriteAt 100 400 16 16)).1
    (by decide!) (by decide) (by decide)

/-- The same scenario through the whole pass: the crate ends at (434, 16), the
player is exploding, timer 1 was set and `Explode` was called once. -/
theorem scenario_pass :
    (ObjectCollision (fun n => 1234 + n)
        { startGame with crates := [spriteAt 100 400 16 16] }).crates
      = [spriteAt 434 16 16 16]
    ∧ (ObjectCollision (fun n => 1234 + n)
        { startGame with crates := [spriteAt 100 400 16 16] }).m_pPlayer.exploding = true
    ∧ (ObjectCollision (fun n => 1234 + n)
        { startGame with crates := [spriteAt 100 400 16 16] }).log
      = [Event.SetTimer 1 100, Event.Explode .player] := by
  decide!

/-! ## Explosions and lives -/

/-- C7: in one pass of `ObjectCollision`, whatever the crates, pickups,
enemies and bullets, `Explode` is called at most once on each ship; a ship
that was exploding or not alive when the pass began receives neither `Explode`
nor `addLife`; and after the `Explode` of a ship the pass calls neither
`addLife` nor `Explode` on it again. -/
theorem explosion_immunity (rnd : Nat → Nat) (g : CGameApp) (sh : Ship) :
    (passEvents rnd g).count (Event.Explode sh) ≤ 1
    ∧ (((g.ship sh).CurrentlyExploding = true ∨ (g.ship sh).isAlive = false) →
        Event.Explode sh ∉ passEvents rnd g ∧ Event.addLife sh ∉ passEvents rnd g)
    ∧ (∀ pre post, passEvents rnd g = pre ++ Event.Explode sh :: post →
        Event.addLife sh ∉ post ∧ Event.Explode sh ∉ post)
    ∧ (Event.Explode sh ∈ passEvents rnd g →
        ((ObjectCollision rnd g).ship sh).CurrentlyExploding = true) := by
  obtain ⟨-, -, -, i4, i5, i6, i7, -, -⟩ := ObjectCollision_inv rnd g sh
  refine ⟨i5, i6, ?_, i4⟩
  intro pre post he
  refine ⟨i7 pre post he, ?_⟩
  intro hm
  rw [he, List.count_append, List.count_cons_self] at i5
  have : 0 < List.count (Event.Explode sh) post := List.count_pos_iff.2 hm
  omega

/-- A ship overlapping two crates, a pickup, an enemy and an enemy bullet at
once explodes on the first crate and is left alone for the rest of the pass;
the ally, away from everything, is not touched. -/
theorem explosion_immunity_witness :
    passEvents (fun n => 7 * n)
        { startGame with
          crates := [spriteAt 100 400 16 16, spriteAt 110 410 16 16],
          bonusLives := [spriteAt 100 400 16 16],
          enemies := [{ toSpriteManipulation := spriteAt 100 400 16 16,
                        bullets := [{ toSpriteManipulation := spriteAt 100 400 4 4,
                                      id := 1, outsideScreen := false, firedBy := none }] }] }
      = [Event.SetTimer 1 100, Event.Explode .player]
    ∧ (Event.Explode .ally ∉ passEvents (fun n => 7 * n)
          { gameOf (shipAt 100 400) { shipAt 100 400 with exploding := true } with
            crates := [spriteAt 100 400 16 16], bonusLives := [spriteAt 100 400 16 16] }
        ∧ Event.addLife .ally ∉ passEvents (fun n => 7 * n)
          { gameOf (shipAt 100 400) { shipAt 100 400 with exploding := true } with
            crates := [spriteAt 100 400 16 16], bonusLives := [spriteAt 100 400 16 16] }) :=
  ⟨by decide!,
    (explosion_immunity (fun n => 7 * n)
      { gameOf (shipAt 100 400) { shipAt 100 400 with exploding := true } with
        crates := [spriteAt 100 400 16 16], bonusLives := [spriteAt 100 400 16 16] }
      .ally).2.1 (Or.inl rfl)⟩

/-! ## Score -/

theorem fireKey_score (api : Collaborators) (hk : api.keepsScore) (sh o : Ship)
    (g : CGameApp) : (g.ship o).score ≤ ((fireKey api sh g).ship o).score := by
  have h1 := hk.1 (g.ship sh)
  cases sh <;> cases o <;> first
    | exact h1 _
    | exact Nat.le_refl _

theorem fireKeys_score (api : Collaborators) (hk : api.keepsScore)
    (pKeyBuffer : Nat → Nat) (g : CGameApp) (o : Ship) :
    (g.ship o).score ≤ ((fireKeys api pKeyBuffer g).ship o).score := by
  have f : ∀ (c : Bool) (sh : Ship) (g : CGameApp),
      (g.ship o).score ≤ ((if c then fireKey api sh g else g).ship o).score := by
    intro c sh g
    cases c
    · exact Nat.le_refl _
    · exact fireKey_score api hk sh o g
  exact Nat.le_trans (f (keyDown pKeyBuffer VK_SPACE) .player g)
    (f (keyDown pKeyBuffer 'C'.toNat) .ally _)

theorem movePlayers_score (api : Collaborators) (hk : api.keepsScore)
    (d1 d2 : Nat) (g : CGameApp) (o : Ship) :
    (g.ship o).score ≤ ((movePlayers api d1 d2 g).ship o).score := by
  obtain ⟨-, k2, k3, -⟩ := hk
  have c1 := k2 g.m_pPlayer g.ally_pPlayer
  have c2 := k2 (api.Collsion g.m_pPlayer g.ally_pPlayer).2
    (api.Collsion g.m_pPlayer g.ally_pPlayer).1
  cases o
  · exact Nat.le_trans c1.1 (Nat.le_trans c2.2 (k3 _ d1))
  · exact Nat.le_trans c1.2 (Nat.le_trans c2.1 (k3 _ d2))

theorem ProcessInput_score (api : Collaborators) (hk : api.keepsScore)
    (kb : Option (Nat → Nat)) (g : CGameApp) (o : Ship) :
    (g.ship o).score ≤ ((ProcessInput api kb g).ship o).score := by
  cases kb with
  | none => exact Nat.le_refl _
  | some pKeyBuffer =>
    exact Nat.le_trans (fireKeys_score api hk pKeyBuffer g o)
      (movePlayers_score api hk _ _ _ o)

theorem ObjectCollision_score (rnd : Nat → Nat) (g : CGameApp) (o : Ship) :
    (g.ship o).score ≤ ((ObjectCollision rnd g).ship o).score := by
  rw [(ObjectCollision_inv rnd g o).2.2.2.2.2.2.2.1]
  exact Nat.le_add_right _ _

theorem enemyVolley_ship (api : Collaborators) (current : Int) (g : CGameApp) (o : Ship) :
    (enemyVolley api current g).ship o = g.ship o := by
  unfold enemyVolley
  split
  · cases o <;> rfl
  · rfl

theorem AnimateObjects_score (api : Collaborators) (hk : api.keepsScore) (dt : ℚ)
    (current : Int) (rnd : Nat → Nat) (g : CGameApp) (o : Ship) :
    (g.ship o).score ≤ ((AnimateObjects api dt current rnd g).ship o).score := by
  unfold AnimateObjects
  refine Nat.le_trans ?_ (ObjectCollision_score rnd _ o)
  rw [enemyVolley_ship]
  cases o
  · exact hk.2.2.2 _ _
  · exact hk.2.2.2 _ _

theorem DrawObjects_ship (g : CGameApp) (o : Ship) : (DrawObjects g).ship o = g.ship o := by
  cases o <;> rfl

theorem FrameAdvance_score (api : Collaborators) (hk : api.keepsScore) (g : CGameApp)
    (i : FrameInput) (o : Ship) :
    (g.ship o).score ≤ ((FrameAdvance api g i).ship o).score := by
  unfold FrameAdvance
  split
  · exact Nat.le_refl _
  · rw [DrawObjects_ship]
    exact Nat.le_trans (ProcessInput_score api hk i.kb g o)
      (AnimateObjects_score api hk i.dt i.clock i.rnd _ o)

theorem frames_score (api : Collaborators) (hk : api.keepsScore) (o : Ship) :
    ∀ (frames : List FrameInput) (g : CGameApp),
      (g.ship o).score ≤ ((frames.foldl (FrameAdvance api) g).ship o).score
  | [], _ => Nat.le_refl _
  | i :: rest, g =>
    Nat.le_trans (FrameAdvance_score api hk g i o)
      (frames_score api hk o rest (FrameAdvance api g i))

/-- C10: with `incrementScore(n)` adding `n`, the score of each ship after a
pass of `ObjectCollision` is at least its score before; it is the score before
plus the points of the `incrementScore` calls of the pass, each of which adds 1
or 10; and over any sequence of frames no score decreases, the other methods of
the ships not lowering it. -/
theorem score_nondecreasing (rnd : Nat → Nat) (g : CGameApp) (sh : Ship) :
    (g.ship sh).score ≤ ((ObjectCollision rnd g).ship sh).score
    ∧ ((ObjectCollision rnd g).ship sh).score
        = (g.ship sh).score + pointsOf sh (passEvents rnd g)
    ∧ (∀ s n, Event.incrementScore s n ∈ passEvents rnd g → n = 1 ∨ n = 10)
    ∧ (∀ (api : Collaborators) (frames : List FrameInput), api.keepsScore →
        (g.ship sh).score ≤ ((frames.foldl (FrameAdvance api) g).ship sh).score) := by
  obtain ⟨-, -, -, -, -, -, -, i8, i9⟩ := ObjectCollision_inv rnd g sh
  exact ⟨ObjectCollision_score rnd g sh, i8, fun s n h => (i9 s n h).2,
    fun api frames hk => frames_score api hk sh frames g⟩

theorem restingCollaborators_keepsScore : restingCollaborators.keepsScore :=
  ⟨fun _ _ => Nat.le_refl _, fun _ _ => ⟨Nat.le_refl _, Nat.le_refl _⟩,
    fun _ _ => Nat.le_refl _, fun _ _ => Nat.le_refl _⟩

/-- A pass and two frames in which points are scored.  From 5 points, the
pass of `scoringGame` credits the crate hit (1) and the enemy hit (10) to the
player, who ends at 16; over the two frames of `scoringFrames` the enemy is
hit in each, and the player goes from 5 to 16 and then to 26.  The ally stays
at 2 throughout. -/
theorem score_nondecreasing_witness :
    (scoringGame.ship .player).score = 5
    ∧ passEvents scoringRand scoringGame
        = [Event.incrementScore .player 1, Event.incrementScore .player 10]
    ∧ ((ObjectCollision scoringRand scoringGame).ship .player).score = 5 + 11
    ∧ (scoringGame.ship .player).score
        ≤ ((ObjectCollision scoringRand scoringGame).ship .player).score
    ∧ ((FrameAdvance restingCollaborators scoringGame
          { kb := some (oneKey VK_SPACE), dt := 1 / 60, clock := 16,
            rnd := scoringRand }).ship .player).score = 16
    ∧ ((scoringFrames.foldl (FrameAdvance restingCollaborators) scoringGame).ship
          .player).score = 26
    ∧ (scoringGame.ship .player).score
        ≤ ((scoringFrames.foldl (FrameAdvance restingCollaborators) scoringGame).ship
            .player).score
    ∧ ((scoringFrames.foldl (FrameAdvance restingCollaborators) scoringGame).ship
          .ally).score = 2 := by
  have h := score_nondecreasing scoringRand scoringGame .player
  have hev : passEvents scoringRand scoringGame
      = [Event.incrementScore .player 1, Event.incrementScore .player 10] := by decide!
  have hpass : ((ObjectCollision scoringRand scoringGame).ship .player).score = 5 + 11 := by
    rw [h.2.1, hev]
    rfl
  exact ⟨rfl, hev, hpass, h.1, by decide!, by decide!,
    h.2.2.2 restingCollaborators scoringFrames restingCollaborators_keepsScore, by decide!⟩

/-! ## Retirement of bullets in `DrawObjects` -/

theorem filter_id_ne_of_not_mem (l : List Bullet) (n : Nat) (h : n ∉ l.map Bullet.id) :
    l.filter (fun c => c.id != n) = l := by
  rw [List.filter_eq_self]
  intro c hc
  have : c.id ≠ n := fun e => h (e ▸ List.mem_map_of_mem Bullet.id hc)
  simpa using this

/-- The loop over distinct bullets keeps exactly the unflagged ones, in order,
and draws each of them once. -/
theorem drawBullets_distinct : ∀ (fuel : Nat) (log : List Event) (kept rest : List Bullet),
    rest.length ≤ fuel → ((kept ++ rest).map Bullet.id).Nodup →
    drawBullets fuel log kept rest
      = (log ++ (rest.filter (fun b => !b.outsideScreen)).map (fun b => Event.DrawBullet b.id),
         kept ++ rest.filter (fun b => !b.outsideScreen)) := by
  intro fuel
  induction fuel with
  | zero =>
    intro log kept rest hl _
    have : rest = [] := List.length_eq_zero.1 (Nat.le_zero.1 hl)
    subst this
    simp [drawBullets]
  | succ fuel ih =>
    intro log kept rest hl hnd
    cases rest with
    | nil => simp [drawBullets]
    | cons b r =>
      have hl2 : r.length ≤ fuel := Nat.le_of_succ_le_succ hl
      rw [List.map_append, List.map_cons] at hnd
      have hnd2 := List.nodup_append.1 hnd
      have hbk : b.id ∉ kept.map Bullet.id := by
        intro hm
        exact hnd2.2.2 hm (List.mem_cons_self _ _)
      have hbr : b.id ∉ r.map Bullet.id := (List.nodup_cons.1 hnd2.2.1).1
      cases hb : b.outsideScreen with
      | true =>
        have hnd3 : ((kept ++ r).map Bullet.id).Nodup := by
          rw [List.map_append]
          refine List.nodup_append.2 ⟨hnd2.1, (List.nodup_cons.1 hnd2.2.1).2, ?_⟩
          intro a ha1 ha2
          exact hnd2.2.2 ha1 (List.mem_cons_of_mem _ ha2)
        simp only [drawBullets, hb, if_true, filter_id_ne_of_not_mem kept b.id hbk,
          filter_id_ne_of_not_mem r b.id hbr]
        rw [ih log kept r hl2 hnd3]
        simp [List.filter_cons, hb]
      | false =>
        have hnd3 : (((kept ++ [b]) ++ r).map Bullet.id).Nodup := by
          simpa [List.map_append] using hnd
        simp only [drawBullets, hb]
        rw [ih _ (kept ++ [b]) r hl2 hnd3]
        simp [List.filter_cons, hb]

theorem DrawObjects_bullet (g : CGameApp) (h : (g.bullet.map Bullet.id).Nodup) :
    (DrawObjects g).bullet = g.bullet.filter (fun b => !b.outsideScreen)
    ∧ (DrawObjects g).log
        = g.log ++ (g.bullet.filter (fun b => !b.outsideScreen)).map
            (fun b => Event.DrawBullet b.id) := by
  have := drawBullets_distinct g.bullet.length g.log [] g.bullet (Nat.le_refl _)
    (by simpa using h)
  simp [DrawObjects, this]

theorem PassRun.bullet (g g2 : CGameApp) (h : PassRun g g2) : g2.bullet = g.bullet := by
  induction h with
  | refl => rfl
  | tail _ st ih =>
    rw [← ih]
    cases st with
    | explode _ _ _ _ _ _ _ _ h6 _ => exact h6
    | life _ _ _ _ _ _ _ _ h6 _ => exact h6
    | score _ _ _ _ _ _ _ h4 _ => exact h4
    | frame _ _ _ _ _ h4 _ => exact h4

theorem PassRun.nextBullet (g g2 : CGameApp) (h : PassRun g g2) :
    g2.nextBullet = g.nextBullet := by
  induction h with
  | refl => rfl
  | tail _ st ih =>
    rw [← ih]
    cases st with
    | explode _ _ _ _ _ _ _ _ _ h7 => exact h7
    | life _ _ _ _ _ _ _ _ _ h7 => exact h7
    | score _ _ _ _ _ _ _ _ h5 => exact h5
    | frame _ _ _ _ _ _ h5 => exact h5

theorem ObjectCollision_bullet (rnd : Nat → Nat) (g : CGameApp) :
    (ObjectCollision rnd g).bullet = g.bullet :=
  PassRun.bullet g _ (ObjectCollision_run rnd g)

theorem drawBullets_subset : ∀ (fuel : Nat) (log : List Event) (kept rest : List Bullet),
    ∀ c ∈ (drawBullets fuel log kept rest).2, c ∈ kept ++ rest := by
  intro fuel
  induction fuel with
  | zero => intro log kept rest c hc; simpa [drawBullets] using hc
  | succ fuel ih =>
    intro log kept rest c hc
    cases rest with
    | nil => simpa [drawBullets] using hc
    | cons b r =>
      cases hb : b.outsideScreen with
      | true =>
        simp only [drawBullets, hb, if_true] at hc
        have := ih _ _ _ c hc
        rcases List.mem_append.1 this with h | h
        · exact List.mem_append_left _ (List.mem_of_mem_filter h)
        · exact List.mem_append_right _ (List.mem_cons_of_mem _ (List.mem_of_mem_filter h))
      | false =>
        simp only [drawBullets, hb] at hc
        have := ih _ _ _ c hc
        simpa using this

theorem DrawObjects_subset (g : CGameApp) : ∀ c ∈ (DrawObjects g).bullet, c ∈ g.bullet := by
  intro c hc
  simpa using drawBullets_subset g.bullet.length g.log [] g.bullet c hc

theorem DrawObjects_nextBullet (g : CGameApp) :
    (DrawObjects g).nextBullet = g.nextBullet := rfl

/-! ### Where the bullets of later frames come from -/

theorem bulletsFrom_fireKey (api : Collaborators) (sh : Ship) (S : List Nat) (N : Nat)
    (g : CGameApp) (h : bulletsFrom S N g) : bulletsFrom S N (fireKey api sh g) := by
  obtain ⟨h1, h2⟩ := h
  constructor
  · intro c hc
    have hc2 : c ∈ g.bullet ++ [{ (api.FireBullet (g.ship sh)
        { toSpriteManipulation := api.newBullet, id := g.nextBullet,
          outsideScreen := false, firedBy := none }).2 with
        id := g.nextBullet, firedBy := some sh }] := hc
    rcases List.mem_append.1 hc2 with hc3 | hc3
    · exact h1 c hc3
    · rw [List.mem_singleton.1 hc3]
      exact Or.inr h2
  · exact Nat.le_succ_of_le h2

theorem bulletsFrom_ProcessInput (api : Collaborators) (kb : Option (Nat → Nat))
    (S : List Nat) (N : Nat) (g : CGameApp) (h : bulletsFrom S N g) :
    bulletsFrom S N (ProcessInput api kb g) := by
  cases kb with
  | none => exact h
  | some pKeyBuffer =>
    have f : ∀ (c : Bool) (sh : Ship) (g : CGameApp), bulletsFrom S N g →
        bulletsFrom S N (if c then fireKey api sh g else g) := by
      intro c sh g hg
      cases c
      · exact hg
      · exact bulletsFrom_fireKey api sh S N g hg
    exact f (keyDown pKeyBuffer 'C'.toNat) .ally _ (f (keyDown pKeyBuffer VK_SPACE) .player g h)

theorem bulletsFrom_tested (api : Collaborators) (i : FrameInput) (S : List Nat) (N : Nat)
    (g : CGameApp) (h : bulletsFrom S N g) :
    (∀ c ∈ testedBullets api g i, c.id ∈ S ∨ N ≤ c.id)
    ∧ bulletsFrom S N (AnimateObjects api i.dt i.clock i.rnd (ProcessInput api i.kb g)) := by
  obtain ⟨h1, h2⟩ := bulletsFrom_ProcessInput api i.kb S N g h
  have hu : bulletsFrom S N (updateAll api i.dt (ProcessInput api i.kb g)) := by
    constructor
    · intro c hc
      obtain ⟨c0, hc0, rfl⟩ := List.mem_map.1 hc
      exact h1 c0 hc0
    · exact h2
  have hv : bulletsFrom S N
      (enemyVolley api i.clock (updateAll api i.dt (ProcessInput api i.kb g))) := by
    unfold enemyVolley
    split
    · exact hu
    · exact hu
  refine ⟨hv.1, ?_⟩
  unfold AnimateObjects
  constructor
  · rw [ObjectCollision_bullet]
    exact hv.1
  · rw [PassRun.nextBullet _ _ (ObjectCollision_run _ _)]
    exact hv.2

theorem bulletsFrom_FrameAdvance (api : Collaborators) (i : FrameInput) (S : List Nat)
    (N : Nat) (g : CGameApp) (h : bulletsFrom S N g) :
    bulletsFrom S N (FrameAdvance api g i) := by
  unfold FrameAdvance
  split
  · exact h
  · obtain ⟨h1, h2⟩ := (bulletsFrom_tested api i S N g h).2
    refine ⟨fun c hc => h1 c (DrawObjects_subset _ c hc), ?_⟩
    rw [DrawObjects_nextBullet]
    exact h2

theorem bulletsFrom_frames (api : Collaborators) (S : List Nat) (N : Nat) :
    ∀ (frames : List FrameInput) (g : CGameApp), bulletsFrom S N g →
      bulletsFrom S N (frames.foldl (FrameAdvance api) g)
  | [], _, h => h
  | i :: rest, g, h =>
    bulletsFrom_frames api S N rest _ (bulletsFrom_FrameAdvance api i S N g h)

/-! ### The bullets of a running game are distinct -/

theorem bulletsOk_fireKey (api : Collaborators) (sh : Ship) (g : CGameApp)
    (h : g.bulletsDistinct ∧ g.bulletsNumbered) :
    (fireKey api sh g).bulletsDistinct ∧ (fireKey api sh g).bulletsNumbered := by
  obtain ⟨h1, h2⟩ := h
  have e : (fireKey api sh g).bullet = g.bullet ++ [{ (api.FireBullet (g.ship sh)
      { toSpriteManipulation := api.newBullet, id := g.nextBullet,
        outsideScreen := false, firedBy := none }).2 with
      id := g.nextBullet, firedBy := some sh }] := rfl
  have en : (fireKey api sh g).nextBullet = g.nextBullet + 1 := by
    cases sh <;> rfl
  constructor
  · unfold CGameApp.bulletsDistinct
    rw [e, List.map_append]
    refine List.nodup_append.2 ⟨h1, by simp, ?_⟩
    intro a ha hb
    obtain ⟨c, hc, rfl⟩ := List.mem_map.1 ha
    have := h2 c hc
    simp only [List.map_cons, List.map_nil, List.mem_singleton] at hb
    omega
  · intro c hc
    rw [e] at hc
    rw [en]
    rcases List.mem_append.1 hc with hc | hc
    · exact Nat.lt_succ_of_lt (h2 c hc)
    · rw [List.mem_singleton.1 hc]
      exact Nat.lt_succ_self _

theorem bulletsOk_FrameAdvance (api : Collaborators) (g : CGameApp) (i : FrameInput)
    (h : g.bulletsDistinct ∧ g.bulletsNumbered) :
    (FrameAdvance api g i).bulletsDistinct ∧ (FrameAdvance api g i).bulletsNumbered := by
  unfold FrameAdvance
  split
  · exact h
  · have hp : (ProcessInput api i.kb g).bulletsDistinct
        ∧ (ProcessInput api i.kb g).bulletsNumbered := by
      cases i.kb with
      | none => exact h
      | some pKeyBuffer =>
        have f : ∀ (c : Bool) (sh : Ship) (g : CGameApp),
            g.bulletsDistinct ∧ g.bulletsNumbered →
            (if c then fireKey api sh g else g).bulletsDistinct
              ∧ (if c then fireKey api sh g else g).bulletsNumbered := by
          intro c sh g hg
          cases c
          · exact hg
          · exact bulletsOk_fireKey api sh g hg
        exact f (keyDown pKeyBuffer 'C'.toNat) .ally _
          (f (keyDown pKeyBuffer VK_SPACE) .player g h)
    have hids : ((AnimateObjects api i.dt i.clock i.rnd (ProcessInput api i.kb g)).bullet.map
        Bullet.id) = (ProcessInput api i.kb g).bullet.map Bullet.id := by
      unfold AnimateObjects
      rw [ObjectCollision_bullet]
      have : (enemyVolley api i.clock (updateAll api i.dt (ProcessInput api i.kb g))).bullet
          = (updateAll api i.dt (ProcessInput api i.kb g)).bullet := by
        unfold enemyVolley
        split <;> rfl
      rw [this]
      simp [updateAll, Function.comp_def]
    have hn : (AnimateObjects api i.dt i.clock i.rnd (ProcessInput api i.kb g)).nextBullet
        = (ProcessInput api i.kb g).nextBullet := by
      unfold AnimateObjects
      rw [PassRun.nextBullet _ _ (ObjectCollision_run _ _)]
      unfold enemyVolley
      split <;> rfl
    have hd : (AnimateObjects api i.dt i.clock i.rnd
        (ProcessInput api i.kb g)).bulletsDistinct := by
      unfold CGameApp.bulletsDistinct
      rw [hids]
      exact hp.1
    constructor
    · unfold CGameApp.bulletsDistinct
      rw [(DrawObjects_bullet _ hd).1]
      exact (List.Nodup.sublist ((List.filter_sublist _).map Bullet.id) hd)
    · intro c hc
      rw [DrawObjects_nextBullet, hn]
      have hc1 := DrawObjects_subset _ c hc
      have : c.id ∈ (ProcessInput api i.kb g).bullet.map Bullet.id := by
        rw [← hids]
        exact List.mem_map_of_mem Bullet.id hc1
      obtain ⟨c0, hc0, hid⟩ := List.mem_map.1 this
      rw [← hid]
      exact hp.2 c0 hc0

theorem startGame_bulletsOk : startGame.bulletsDistinct ∧ startGame.bulletsNumbered :=
  ⟨by decide, by decide⟩

/-- Along any sequence of frames the shared list holds distinct bullets, all
created before the current frame, if it did so at the beginning. -/
theorem bulletsOk_frames (api : Collaborators) :
    ∀ (frames : List FrameInput) (g : CGameApp),
      g.bulletsDistinct ∧ g.bulletsNumbered →
      (frames.foldl (FrameAdvance api) g).bulletsDistinct
        ∧ (frames.foldl (FrameAdvance api) g).bulletsNumbered
  | [], _, h => h
  | i :: rest, g, h => bulletsOk_frames api rest _ (bulletsOk_FrameAdvance api g i h)

/-- C9: when the shared list holds distinct bullets, `DrawObjects` leaves
exactly the bullets whose `outsideScreen` flag was false, in their order, and
draws each of them once; every flagged bullet is gone, the collision pass does
not change the list it tests, and in no later frame is a bullet that was
flagged before the call in the list tested by `ObjectCollision`. -/
theorem bullet_retirement (g : CGameApp) (h : g.bulletsDistinct) :
    (DrawObjects g).bullet = g.bullet.filter (fun b => !b.outsideScreen)
    ∧ (DrawObjects g).log
        = g.log ++ (g.bullet.filter (fun b => !b.outsideScreen)).map
            (fun b => Event.DrawBullet b.id)
    ∧ (∀ b ∈ (DrawObjects g).bullet, b.outsideScreen = false)
    ∧ (∀ rnd, (ObjectCollision rnd (DrawObjects g)).bullet = (DrawObjects g).bullet)
    ∧ (∀ b ∈ g.bullet, b.outsideScreen = true →
        b.id ∉ (DrawObjects g).bullet.map Bullet.id
        ∧ (g.bulletsNumbered →
            ∀ (api : Collaborators) (frames : List FrameInput) (i : FrameInput),
              b.id ∉ (testedBullets api
                (frames.foldl (FrameAdvance api) (DrawObjects g)) i).map Bullet.id)) := by
  have hnd : (g.bullet.map Bullet.id).Nodup := h
  obtain ⟨e1, e2⟩ := DrawObjects_bullet g hnd
  have gone : ∀ b ∈ g.bullet, b.outsideScreen = true →
      b.id ∉ (DrawObjects g).bullet.map Bullet.id := by
    intro b hb hf hm
    obtain ⟨c, hc, hid⟩ := List.mem_map.1 hm
    rw [e1] at hc
    have hc1 : c ∈ g.bullet := List.mem_of_mem_filter hc
    have hc2 : (!c.outsideScreen) = true := (List.mem_filter.1 hc).2
    have : c = b := List.inj_on_of_nodup_map hnd hc1 hb hid
    rw [this, hf] at hc2
    exact Bool.noConfusion hc2
  refine ⟨e1, e2, ?_, fun rnd => ObjectCollision_bullet rnd _, ?_⟩
  · intro b hb
    rw [e1] at hb
    simpa using (List.mem_filter.1 hb).2
  · intro b hb hf
    refine ⟨gone b hb hf, ?_⟩
    intro hlt api frames i hm
    have h0 : bulletsFrom ((DrawObjects g).bullet.map Bullet.id) g.nextBullet (DrawObjects g) :=
      ⟨fun c hc => Or.inl (List.mem_map_of_mem Bullet.id hc),
        Nat.le_of_eq (DrawObjects_nextBullet g).symm⟩
    have h1 := (bulletsFrom_tested api i _ _ _ (bulletsFrom_frames api _ _ frames _ h0)).1
    obtain ⟨c, hc, hid⟩ := List.mem_map.1 hm
    rcases h1 c hc with h2 | h2
    · exact gone b hb hf (hid ▸ h2)
    · have := hlt b hb
      omega

/-- Of three distinct bullets with the middle one flagged, `DrawObjects` keeps
and draws the first and the third, and the second is in no list tested later. -/
theorem bullet_retirement_witness :
    (DrawObjects threeBullets).bullet.map Bullet.id = [0, 2]
    ∧ (DrawObjects threeBullets).log = [Event.DrawBullet 0, Event.DrawBullet 2]
    ∧ ∀ (api : Collaborators) (frames : List FrameInput) (i : FrameInput),
        1 ∉ (testedBullets api
          (frames.foldl (FrameAdvance api) (DrawObjects threeBullets)) i).map Bullet.id := by
  have h := bullet_retirement threeBullets (by decide)
  refine ⟨by rw [h.1]; decide, by rw [h.2.1]; decide, ?_⟩
  exact (h.2.2.2.2
    { toSpriteManipulation := spriteAt 100 (-10) 4 4, id := 1, outsideScreen := true,
      firedBy := some .player }
    (by simp [threeBullets]) rfl).2 (by decide)

/-! ## The fire keys -/

theorem fireKey_bullet (api : Collaborators) (sh : Ship) (g : CGameApp) :
    ∃ b : Bullet, (fireKey api sh g).bullet = g.bullet ++ [b] ∧ b.firedBy = some sh :=
  ⟨_, rfl, rfl⟩

/-- C8, as the code has it: `ProcessInput` does not look at `isAlive()`.  For
each fire key that is held (SPACE, then C) one bullet is created and appended
to the shared list, whatever `FireBullet` does with it and whether or not the
ship is alive; the bullets that were in the list stay in front, and a held
fire key always makes the list longer. -/
theorem fire_keys_ignore_alive (api : Collaborators) (pKeyBuffer : Nat → Nat)
    (g : CGameApp) :
    (∃ created : List Bullet,
      (ProcessInput api (some pKeyBuffer) g).bullet = g.bullet ++ created
      ∧ created.map Bullet.firedBy
          = (if keyDown pKeyBuffer VK_SPACE then [some Ship.player] else [])
            ++ (if keyDown pKeyBuffer 'C'.toNat then [some Ship.ally] else []))
    ∧ (keyDown pKeyBuffer VK_SPACE = true →
        g.bullet.length < (ProcessInput api (some pKeyBuffer) g).bullet.length)
    ∧ (keyDown pKeyBuffer 'C'.toNat = true →
        g.bullet.length < (ProcessInput api (some pKeyBuffer) g).bullet.length) := by
  have e : (ProcessInput api (some pKeyBuffer) g).bullet
      = (fireKeys api pKeyBuffer g).bullet := rfl
  have main : ∃ created : List Bullet,
      (fireKeys api pKeyBuffer g).bullet = g.bullet ++ created
      ∧ created.map Bullet.firedBy
          = (if keyDown pKeyBuffer VK_SPACE then [some Ship.player] else [])
            ++ (if keyDown pKeyBuffer 'C'.toNat then [some Ship.ally] else []) := by
    unfold fireKeys
    cases keyDown pKeyBuffer VK_SPACE <;> cases keyDown pKeyBuffer 'C'.toNat
    · exact ⟨[], by simp, by simp⟩
    · obtain ⟨b, hb1, hb2⟩ := fireKey_bullet api .ally g
      exact ⟨[b], by simpa using hb1, by simp [hb2]⟩
    · obtain ⟨b, hb1, hb2⟩ := fireKey_bullet api .player g
      exact ⟨[b], by simpa using hb1, by simp [hb2]⟩
    · obtain ⟨b, hb1, hb2⟩ := fireKey_bullet api .player g
      obtain ⟨c, hc1, hc2⟩ := fireKey_bullet api .ally (fireKey api .player g)
      refine ⟨[b, c], ?_, by simp [hb2, hc2]⟩
      simp only [if_true]
      rw [hc1, hb1]
      simp
  rw [e]
  obtain ⟨created, m1, m2⟩ := main
  have hlen : created.length
      = (if keyDown pKeyBuffer VK_SPACE then 1 else 0)
        + (if keyDown pKeyBuffer 'C'.toNat then 1 else 0) := by
    have := congrArg List.length m2
    rw [List.length_map, List.length_append] at this
    rw [this]
    cases keyDown pKeyBuffer VK_SPACE <;> cases keyDown pKeyBuffer 'C'.toNat <;> rfl
  refine ⟨⟨created, m1, m2⟩, ?_, ?_⟩
  · intro h
    rw [m1, List.length_append, hlen, h]
    simp only [if_true]
    omega
  · intro h
    rw [m1, List.length_append, hlen, h]
    simp only [if_true]
    omega

/-- With SPACE held, a bullet is appended for the player, here not alive. -/
theorem fire_keys_ignore_alive_witness :
    deadPlayerGame.bullet.length
      < (ProcessInput restingCollaborators (some (oneKey VK_SPACE))
          deadPlayerGame).bullet.length :=
  (fire_keys_ignore_alive restingCollaborators (oneKey VK_SPACE) deadPlayerGame).2.1
    (by decide)

/-- C8 fails on the code: the player is not alive, SPACE is held, and
`ProcessInput` still creates a bullet and appends it to the shared list. -/
theorem dead_ship_fire_counterexample :
    (deadPlayerGame.ship .player).isAlive = false
    ∧ keyDown (oneKey VK_SPACE) VK_SPACE = true
    ∧ deadPlayerGame.bullet = []
    ∧ (ProcessInput restingCollaborators (some (oneKey VK_SPACE)) deadPlayerGame).bullet
        = [{ toSpriteManipulation := restingCollaborators.newBullet, id := 0,
             outsideScreen := false, firedBy := some .player }]
    ∧ (ProcessInput restingCollaborators (some (oneKey VK_SPACE)) deadPlayerGame).bullet
        ≠ deadPlayerGame.bullet := by
  decide!

/-! ## Who gets the points -/

theorem pointsOf_ally_zero (evs : List Event)
    (h : ∀ s n, Event.incrementScore s n ∈ evs → s = Ship.player ∧ (n = 1 ∨ n = 10)) :
    pointsOf .ally evs = 0 := by
  induction evs with
  | nil => rfl
  | cons e rest ih =>
    have hr := ih (fun s n hm => h s n (List.mem_cons_of_mem _ hm))
    cases e with
    | incrementScore s n =>
      have := (h s n (List.mem_cons_self _ _)).1
      subst this
      simpa [pointsOf] using hr
    | _ => simpa [pointsOf] using hr

/-- C5, as the code has it: the points of every hit of a shared bullet go to
`m_pPlayer`, whoever fired the bullet.  A bullet overlapping a crate adds 1 to
the score of the player and a bullet overlapping an enemy adds 10, the ally
being left as it is; every `incrementScore` of a pass is a call on the
player; and the score of the ally after a pass is its score before. -/
theorem points_go_to_player (rnd : Nat → Nat) (g : CGameApp) :
    (∀ (i : Crate) (it : Bullet),
      CollisionFlag i it.toSpriteManipulation = true →
      (crateBulletTest rnd (g, i) it).1.m_pPlayer.score = g.m_pPlayer.score + 1
      ∧ (crateBulletTest rnd (g, i) it).1.ally_pPlayer = g.ally_pPlayer)
    ∧ (∀ (i : Enemy) (it : Bullet),
      CollisionFlag i.toSpriteManipulation it.toSpriteManipulation = true →
      (enemyBulletTest rnd (g, i) it).1.m_pPlayer.score = g.m_pPlayer.score + 10
      ∧ (enemyBulletTest rnd (g, i) it).1.ally_pPlayer = g.ally_pPlayer)
    ∧ (∀ s n, Event.incrementScore s n ∈ passEvents rnd g → s = Ship.player)
    ∧ (ObjectCollision rnd g).ally_pPlayer.score = g.ally_pPlayer.score
    ∧ (ObjectCollision rnd g).m_pPlayer.score
        = g.m_pPlayer.score + pointsOf .player (passEvents rnd g) := by
  refine ⟨?_, ?_, ?_, ?_, ?_⟩
  · intro i it h
    simp [crateBulletTest, h, CGameApp.setShip, CGameApp.emit, CGameApp.rand800]
  · intro i it h
    simp [enemyBulletTest, h, CGameApp.setShip, CGameApp.emit, CGameApp.rand800]
  · intro s n hm
    exact ((ObjectCollision_inv rnd g .player).2.2.2.2.2.2.2.2 s n hm).1
  · obtain ⟨-, -, -, -, -, -, -, i8, i9⟩ := ObjectCollision_inv rnd g .ally
    have : (ObjectCollision rnd g).ally_pPlayer.score
        = g.ally_pPlayer.score + pointsOf .ally (passEvents rnd g) := i8
    rw [this, pointsOf_ally_zero _ i9, Nat.add_zero]
  · exact (ObjectCollision_inv rnd g .player).2.2.2.2.2.2.2.1

/-- A bullet fired by the ally and lying on a crate gives its point to the
player. -/
theorem points_go_to_player_witness :
    (crateBulletTest (fun n => n) (startGame, spriteAt 400 200 16 16)
        { toSpriteManipulation := spriteAt 400 200 4 4, id := 0, outsideScreen := false,
          firedBy := some .ally }).1.m_pPlayer.score = startGame.m_pPlayer.score + 1
    ∧ (crateBulletTest (fun n => n) (startGame, spriteAt 400 200 16 16)
        { toSpriteManipulation := spriteAt 400 200 4 4, id := 0, outsideScreen := false,
          firedBy := some .ally }).1.ally_pPlayer = startGame.ally_pPlayer :=
  (points_go_to_player (fun n => n) startGame).1 (spriteAt 400 200 16 16)
    { toSpriteManipulation := spriteAt 400 200 4 4, id := 0, outsideScreen := false,
      firedBy := some .ally } (by decide!)

/-- C5 fails on the code: the C key makes the ally fire, the bullet lies on a
crate, and the pass that follows adds the point to the player and nothing to
the ally. -/
theorem ally_bullet_counterexample :
    (ProcessInput restingCollaborators (some (oneKey 'C'.toNat)) allyUnderCrate).bullet.map
        Bullet.firedBy = [some Ship.ally]
    ∧ passEvents (fun n => n)
        (ProcessInput restingCollaborators (some (oneKey 'C'.toNat)) allyUnderCrate)
      = [Event.incrementScore .player 1]
    ∧ (ObjectCollision (fun n => n)
        (ProcessInput restingCollaborators (some (oneKey 'C'.toNat))
          allyUnderCrate)).m_pPlayer.score
      = (ProcessInput restingCollaborators (some (oneKey 'C'.toNat))
          allyUnderCrate).m_pPlayer.score + 1
    ∧ (ObjectCollision (fun n => n)
        (ProcessInput restingCollaborators (some (oneKey 'C'.toNat))
          allyUnderCrate)).ally_pPlayer.score
      = (ProcessInput restingCollaborators (some (oneKey 'C'.toNat))
          allyUnderCrate).ally_pPlayer.score := by
  decide!

/-! ## The volley clock -/

theorem tdiv_gt_two_iff (d c : Int) (hc : 0 < c) : Int.tdiv d c > 2 ↔ 3 * c ≤ d := by
  rcases Int.lt_or_le d 0 with hd | hd
  · have h1 : Int.tdiv d c ≤ 0 := by
      have : Int.tdiv d c = -(Int.tdiv (-d) c) := by
        rw [Int.neg_tdiv, Int.neg_neg]
      rw [this]
      have := Int.tdiv_nonneg (a := -d) (b := c) (by omega) (by omega)
      omega
    constructor
    · intro h; omega
    · intro h
      have : 0 < 3 * c := by omega
      omega
  · rw [Int.tdiv_eq_ediv hd (Int.le_of_lt hc)]
    have := Int.le_ediv_iff_mul_le (a := 3) (b := d) hc
    constructor
    · intro h
      exact this.1 (by omega)
    · intro h
      have := this.2 h
      omega

theorem shootAll_eq (api : Collaborators) : ∀ (l : List Enemy) (n : Nat),
    shootAll api n l = ((List.range' n l.length).map Event.Shoot, l.map api.Shoot)
  | [], _ => rfl
  | e :: rest, n => by
    simp [shootAll, shootAll_eq api rest (n + 1), List.range']

/-- C6, as the code has it: the volley is fired when the whole number of
seconds since the last one (truncating quotient of the clock difference by
`CLOCKS_PER_SEC`) is greater than 2, that is when at least 3 seconds of clock
time have elapsed.  Then `Shoot` is called once on every enemy, in order, and
`prev` becomes `current`; otherwise nothing changes.  Only the clock values
enter the decision. -/
theorem volley_after_three_seconds (api : Collaborators) (current : Int) (g : CGameApp)
    (hc : 0 < api.CLOCKS_PER_SEC) :
    (3 * api.CLOCKS_PER_SEC ≤ current - g.prev →
      (enemyVolley api current g).prev = current
      ∧ (enemyVolley api current g).log
          = g.log ++ (List.range g.enemies.length).map Event.Shoot
      ∧ (enemyVolley api current g).enemies = g.enemies.map api.Shoot)
    ∧ (current - g.prev < 3 * api.CLOCKS_PER_SEC → enemyVolley api current g = g)
    ∧ (∀ (dt : ℚ) (rnd : Nat → Nat),
        AnimateObjects api dt current rnd g
          = ObjectCollision rnd (enemyVolley api current (updateAll api dt g))
        ∧ (updateAll api dt g).prev = g.prev) := by
  refine ⟨?_, ?_, fun dt rnd => ⟨rfl, rfl⟩⟩
  · intro h
    have hg : Int.tdiv (current - g.prev) api.CLOCKS_PER_SEC > 2 :=
      (tdiv_gt_two_iff _ _ hc).2 h
    simp [enemyVolley, hg, shootAll_eq, List.range_eq_range']
  · intro h
    have hg : ¬ Int.tdiv (current - g.prev) api.CLOCKS_PER_SEC > 2 := by
      intro h2
      have := (tdiv_gt_two_iff _ _ hc).1 h2
      omega
    simp [enemyVolley, hg]

/-- Three seconds after the last volley the enemy shoots. -/
theorem volley_after_three_seconds_witness :
    (enemyVolley restingCollaborators 3000 volleyGame).prev = 3000
    ∧ (enemyVolley restingCollaborators 3000 volleyGame).log
        = volleyGame.log ++ (List.range volleyGame.enemies.length).map Event.Shoot
    ∧ (enemyVolley restingCollaborators 3000 volleyGame).enemies
        = volleyGame.enemies.map restingCollaborators.Shoot :=
  (volley_after_three_seconds restingCollaborators 3000 volleyGame (by decide)).1 (by decide)

/-- C6 fails on the code: two seconds and more have elapsed on the clock
(2000 and 2999 ticks at 1000 ticks per second), and no enemy shoots. -/
theorem two_seconds_counterexample :
    (2000 : Int) - volleyGame.prev ≥ 2 * restingCollaborators.CLOCKS_PER_SEC
    ∧ enemyVolley restingCollaborators 2000 volleyGame = volleyGame
    ∧ enemyVolley restingCollaborators 2999 volleyGame = volleyGame
    ∧ (enemyVolley restingCollaborators 2000 volleyGame).log = []
    ∧ (enemyVolley restingCollaborators 2000 volleyGame).prev ≠ 2000 := by
  decide!

/-! ## Timers of the explosions -/

theorem rightAfter_append {α : Type} (y x : α) (l1 l2 : List α)
    (h1 : rightAfter y x l1) (h2 : rightAfter y x l2) : rightAfter y x (l1 ++ l2) := by
  intro pre post he
  rcases List.append_eq_append_iff.1 he with ⟨a, ha1, ha2⟩ | ⟨c, hc1, hc2⟩
  · obtain ⟨front, hf⟩ := h2 a post ha2
    exact ⟨l1 ++ front, by rw [ha1, hf, List.append_assoc]⟩
  · cases c with
    | nil =>
      simp only [List.nil_append] at hc2
      obtain ⟨front, hf⟩ := h2 [] post hc2.symm
      exact absurd hf (by simp)
    | cons z c2 =>
      simp only [List.cons_append, List.cons.injEq] at hc2
      obtain ⟨hz, -⟩ := hc2
      subst hz
      exact h1 pre c2 hc1

theorem rightAfter_of_not_mem {α : Type} (y x : α) (l : List α) (h : x ∉ l) :
    rightAfter y x l := by
  intro pre post he
  exact absurd (he ▸ List.mem_append_right pre (List.mem_cons_self x post)) h

theorem rightAfter_pair {α : Type} (y x : α) (hxy : y ≠ x) : rightAfter y x [y, x] := by
  intro pre post he
  cases pre with
  | nil =>
    simp only [List.nil_append, List.cons.injEq] at he
    exact absurd he.1 hxy
  | cons a pre2 =>
    cases pre2 with
    | nil =>
      simp only [List.cons_append, List.nil_append, List.cons.injEq] at he
      exact ⟨[], by simp [he.1]⟩
    | cons b pre3 =>
      simp at he

/-- Along a run of tests, every `Explode` of a ship comes right after the
`SetTimer` of that ship's timer. -/
theorem PassRun.timer_before_explode (sh : Ship) (g0 g : CGameApp) (h : PassRun g0 g) :
    ∃ evs, g.log = g0.log ++ evs
      ∧ rightAfter (Event.SetTimer (timerId sh) 100) (Event.Explode sh) evs := by
  induction h with
  | refl => exact ⟨[], by simp, rightAfter_of_not_mem _ _ _ (by simp)⟩
  | tail _ st ih =>
    obtain ⟨evs, e1, e2⟩ := ih
    cases st with
    | explode sh2 _ _ _ _ _ _ h5 _ _ =>
      refine ⟨evs ++ [Event.SetTimer (timerId sh2) 100, Event.Explode sh2],
        by rw [h5, e1, List.append_assoc], rightAfter_append _ _ _ _ e2 ?_⟩
      by_cases e : sh2 = sh
      · subst e
        exact rightAfter_pair _ _ (by simp)
      · refine rightAfter_of_not_mem _ _ _ ?_
        simp only [List.mem_cons, List.mem_singleton, List.not_mem_nil, or_false, not_or]
        exact ⟨fun e2 => Event.noConfusion e2, fun e2 => e (Event.Explode.inj e2).symm⟩
    | life sh2 _ _ _ _ _ _ h5 _ _ =>
      exact ⟨evs ++ [Event.SetTimer (timerId sh2) 100, Event.addLife sh2],
        by rw [h5, e1, List.append_assoc],
        rightAfter_append _ _ _ _ e2 (rightAfter_of_not_mem _ _ _ (by simp))⟩
    | score n _ _ _ _ _ h3 _ _ =>
      exact ⟨evs ++ [Event.incrementScore .player n],
        by rw [h3, e1, List.append_assoc],
        rightAfter_append _ _ _ _ e2 (rightAfter_of_not_mem _ _ _ (by simp))⟩
    | frame _ _ _ _ h3 _ _ =>
      exact ⟨evs, by rw [h3, e1], e2⟩

/-- The collision pass starts timer 1 right before it calls `Explode` on the
player and timer 2 right before it calls `Explode` on the ally. -/
theorem ObjectCollision_timer_before_explode (rnd : Nat → Nat) (g : CGameApp) (sh : Ship) :
    rightAfter (Event.SetTimer (timerId sh) 100) (Event.Explode sh) (passEvents rnd g) := by
  obtain ⟨evs, e1, e2⟩ := PassRun.timer_before_explode sh g _ (ObjectCollision_run rnd g)
  have : passEvents rnd g = evs := by
    unfold passEvents
    rw [e1]
    simp
  rw [this]
  exact e2

/-- A tick of timer 1: `AdvanceExplosion` is called on the player and timer 1
is killed exactly when it returns false; then `AdvanceExplosion` is called on
the ally and timer 2 is killed exactly when that call returns false. -/
theorem DisplayWndProcTimer_one (adv : CPlayer → Bool × CPlayer) (g : CGameApp) :
    (DisplayWndProcTimer adv 1 g).2
      = [WndCall.AdvanceExplosion .player (adv g.m_pPlayer).1]
        ++ (if (adv g.m_pPlayer).1 then [] else [WndCall.KillTimer 1])
        ++ [WndCall.AdvanceExplosion .ally (adv g.ally_pPlayer).1]
        ++ (if (adv g.ally_pPlayer).1 then [] else [WndCall.KillTimer 2])
    ∧ (DisplayWndProcTimer adv 1 g).1.m_pPlayer = (adv g.m_pPlayer).2
    ∧ (DisplayWndProcTimer adv 1 g).1.ally_pPlayer = (adv g.ally_pPlayer).2 := by
  simp only [DisplayWndProcTimer, advanceShip, ship_player, ship_ally]
  cases h1 : (adv g.m_pPlayer).1 <;> cases h2 : (adv g.ally_pPlayer).1 <;>
    simp [CGameApp.setShip, CGameApp.emit, h1, h2]

/-- A tick of any timer but timer 1 calls nothing and changes nothing. -/
theorem DisplayWndProcTimer_other (adv : CPlayer → Bool × CPlayer) (wParam : Nat)
    (g : CGameApp) (h : wParam ≠ 1) : DisplayWndProcTimer adv wParam g = (g, []) := by
  unfold DisplayWndProcTimer
  split
  · exact absurd rfl h
  · rfl

theorem timerTicks_two (adv : CPlayer → Bool × CPlayer) (g : CGameApp) :
    ∀ n : Nat, timerTicks adv (List.replicate n 2) g = (g, [])
  | 0 => rfl
  | n + 1 => by
    simp only [List.replicate_succ, timerTicks,
      DisplayWndProcTimer_other adv 2 g (by decide), timerTicks_two adv g n, List.append_nil]

/-- C11 at the failing input: the ally, hit by a crate, explodes and the pass
starts timer 2 for it.  A tick of timer 2 then calls nothing, whatever
`AdvanceExplosion` does: the ally is not advanced and no timer is killed, and
after any number of such ticks the ally is still exploding.  The ally is
advanced, and timer 2 killed, by a tick of timer 1. -/
theorem ally_timer_tick_ignored :
    passEvents (fun n => n) allyHitGame
        = [Event.SetTimer 2 100, Event.Explode .ally]
    ∧ (ObjectCollision (fun n => n) allyHitGame).ally_pPlayer.CurrentlyExploding = true
    ∧ (∀ adv : CPlayer → Bool × CPlayer,
        DisplayWndProcTimer adv 2 (ObjectCollision (fun n => n) allyHitGame)
          = (ObjectCollision (fun n => n) allyHitGame, []))
    ∧ (∀ (adv : CPlayer → Bool × CPlayer) (n : Nat),
        (timerTicks adv (List.replicate n 2)
          (ObjectCollision (fun n => n) allyHitGame)).2 = []
        ∧ (timerTicks adv (List.replicate n 2)
          (ObjectCollision (fun n => n) allyHitGame)).1.ally_pPlayer.CurrentlyExploding
            = true)
    ∧ (DisplayWndProcTimer oneTickExplosion 1 (ObjectCollision (fun n => n) allyHitGame)).2
        = [WndCall.AdvanceExplosion .player true, WndCall.AdvanceExplosion .ally false,
           WndCall.KillTimer 2] := by
  have hexp : (ObjectCollision (fun n => n) allyHitGame).ally_pPlayer.CurrentlyExploding
      = true := by decide!
  refine ⟨by decide!, hexp, ?_, ?_, by decide!⟩
  · intro adv
    exact DisplayWndProcTimer_other adv 2 _ (by decide)
  · intro adv n
    rw [timerTicks_two adv _ n]
    exact ⟨rfl, hexp⟩

end Planes
